import Mathlib

/-! Verification development for the MARTA-Poetry repository.

The Python source keeps a `networkx.MultiDiGraph` whose nodes and edges
carry open attribute bags (`src/backend/poetry/graph/extended_poetry_graph.py`).
We embed that state shallowly: a graph is an insertion-ordered list of
nodes (id paired with its attribute bag) and an insertion-ordered list of
directed edges (parallel edges are repeated list entries, matching the
multigraph).  Attribute values are a JSON-like inductive type; Python
floats that the code manipulates exactly (strengths, scores) are model-
led as rationals.  `datetime.now()` is passed in explicitly as a `now`
string so that the operations stay pure. -/

namespace MartaPoetry

/-- JSON-like attribute values stored on nodes and edges. -/
inductive Val where
  | s (v : String)
  | i (v : Int)
  | q (v : Rat)
  | b (v : Bool)
  | null
  | arr (l : List Val)
  | dict (d : List (String × Val))

/-- An attribute bag: a Python dict as an insertion-ordered association list. -/
abbrev Attrs := List (String × Val)

/-- Python dict lookup (keys are unique in bags the code builds). -/
def findAttr (a : Attrs) (k : String) : Option Val :=
  List.lookup k a

/-- Python dict assignment: update the binding in place if the key
    exists, otherwise append it. -/
def setAttr (a : Attrs) (k : String) (v : Val) : Attrs :=
  if a.any (fun p => p.1 == k) then
    a.map (fun p => if p.1 == k then (p.1, v) else p)
  else a ++ [(k, v)]

/-- A directed multigraph edge with its attribute bag. -/
structure Edge where
  src : String
  tgt : String
  attrs : Attrs

/-- The `networkx.MultiDiGraph` state: nodes and edges in insertion order. -/
structure Graph where
  nodes : List (String × Attrs)
  edges : List Edge

def Graph.empty : Graph := ⟨[], []⟩

def hasNode (g : Graph) (id : String) : Bool :=
  g.nodes.any (fun p => p.1 == id)

def nodeAttrs (g : Graph) (id : String) : Option Attrs :=
  List.lookup id g.nodes

/-- The `type` discriminator attribute of a node, when present. -/
def nodeType (g : Graph) (id : String) : Option String :=
  match nodeAttrs g id with
  | some a =>
    match findAttr a "type" with
    | some (.s t) => some t
    | _ => none
  | none => none

def isType (g : Graph) (id ty : String) : Bool :=
  nodeType g id == some ty

/-- `graph.nodes[id]["name"]` for entity nodes (entities always carry it). -/
def nameOf (g : Graph) (id : String) : String :=
  match nodeAttrs g id with
  | some a =>
    match findAttr a "name" with
    | some (.s n) => n
    | _ => ""
  | none => ""

/-- `graph.nodes[id]["usage_count"]` for entity nodes. -/
def usageOf (g : Graph) (id : String) : Int :=
  match nodeAttrs g id with
  | some a =>
    match findAttr a "usage_count" with
    | some (.i n) => n
    | _ => 0
  | none => 0

/-- `networkx` `add_node`: merge the given attributes into an existing
    node's bag, or append a fresh node. -/
def addNode (g : Graph) (id : String) (a : Attrs) : Graph :=
  if hasNode g id then
    { g with nodes := g.nodes.map (fun p =>
        if p.1 == id then (p.1, a.foldl (fun acc kv => setAttr acc kv.1 kv.2) p.2) else p) }
  else { g with nodes := g.nodes ++ [(id, a)] }

/-- `networkx` `add_edge` silently creates missing endpoint nodes. -/
def ensureNode (g : Graph) (id : String) : Graph :=
  if hasNode g id then g else { g with nodes := g.nodes ++ [(id, [])] }

/-- `networkx` `MultiDiGraph.add_edge`: always appends a new parallel edge. -/
def addEdge (g : Graph) (u v : String) (a : Attrs) : Graph :=
  let g' := ensureNode (ensureNode g u) v
  { g' with edges := g'.edges ++ [⟨u, v, a⟩] }

/-- `networkx` `remove_node`: drops the node and every incident edge. -/
def removeNode (g : Graph) (id : String) : Graph :=
  { nodes := g.nodes.filter (fun p => !(p.1 == id)),
    edges := g.edges.filter (fun e => !(e.src == id) && !(e.tgt == id)) }

/-- Keep the first occurrence of each element (networkx adjacency dicts
    iterate targets in first-insertion order). -/
def firstDedupAux (seen : List String) : List String → List String
  | [] => []
  | x :: xs =>
    if seen.contains x then firstDedupAux seen xs
    else x :: firstDedupAux (x :: seen) xs

def firstDedup (l : List String) : List String := firstDedupAux [] l

/-- `graph.neighbors(id)` / `graph.successors(id)`: for a directed
    networkx graph these are the same — the out-neighbors. -/
def successorsOf (g : Graph) (id : String) : List String :=
  firstDedup ((g.edges.filter (fun e => e.src == id)).map Edge.tgt)

/-- `graph.predecessors(id)`: the in-neighbors. -/
def predecessorsOf (g : Graph) (id : String) : List String :=
  firstDedup ((g.edges.filter (fun e => e.tgt == id)).map Edge.src)

def edgeType (e : Edge) : Option String :=
  match findAttr e.attrs "type" with
  | some (.s t) => some t
  | _ => none

def hasEdge (g : Graph) (u v : String) : Bool :=
  g.edges.any (fun e => e.src == u && e.tgt == v)

/-- Python `str.lower()` (character-wise, as on the ASCII names used). -/
def lowerStr (s : String) : String := ⟨s.data.map Char.toLower⟩

/-- Python `str.replace(' ', '_')`: the pattern is a single character, so
    the replacement is exactly a character-wise map. -/
def spaceToUnderscore (s : String) : String :=
  ⟨s.data.map (fun c => if c == ' ' then '_' else c)⟩

/-- Entity id derivation: `f"{pre}{nm.lower().replace(' ', '_')}"`. -/
def slug (pre nm : String) : String :=
  pre ++ spaceToUnderscore (lowerStr nm)

/-- `_add_or_update_entity`: bump `usage_count` if the node exists, else
    create it with `usage_count = 1`. -/
def add_or_update_entity (g : Graph) (entity_id entity_type nm now : String) : Graph :=
  if hasNode g entity_id then
    { g with nodes := g.nodes.map (fun p =>
        if p.1 == entity_id then
          (p.1, setAttr p.2 "usage_count" (.i (usageOf g entity_id + 1)))
        else p) }
  else
    addNode g entity_id
      [("type", .s entity_type), ("name", .s nm), ("usage_count", .i 1),
       ("created_at", .s now)]

/-- One of the four entity loops inside `add_poem`: ensure the entity and
    append the typed edge (the source has no duplicate-edge check). -/
def addEntityEdges (g : Graph) (poem_id pre ty edgeTy now : String)
    (names : List String) : Graph :=
  names.foldl (fun h nm =>
    let eid := slug pre nm
    let h' := add_or_update_entity h eid ty nm now
    addEdge h' poem_id eid [("type", .s edgeTy)]) g

/-- `add_poem` from `extended_poetry_graph.py`. -/
def add_poem (g : Graph) (now poem_id title text route_id : String)
    (themes imagery emotions sound_devices : List String)
    (structure_metadata sound_metadata : Option Attrs)
    (metadata : Attrs) (narrative_role : String) : Graph :=
  let full_metadata :=
    match structure_metadata with
    | some sm => setAttr metadata "structure" (.dict sm)
    | none => metadata
  let full_metadata :=
    match sound_metadata with
    | some sm => setAttr full_metadata "sound_patterns" (.dict sm)
    | none => full_metadata
  let g1 := addNode g poem_id
    [("type", .s "poem"), ("title", .s title), ("text", .s text),
     ("route_id", .s route_id), ("created_at", .s now),
     ("narrative_role", .s narrative_role), ("metadata", .dict full_metadata)]
  let g2 := addEntityEdges g1 poem_id "theme_" "theme" "has_theme" now themes
  let g3 := addEntityEdges g2 poem_id "img_" "imagery" "contains_imagery" now imagery
  let g4 := addEntityEdges g3 poem_id "emo_" "emotion" "conveys_emotion" now emotions
  addEntityEdges g4 poem_id "sound_" "sound_device" "uses_sound_device" now sound_devices

/-- `_get_connected_entities`: names of same-typed out-neighbors. -/
def get_connected_entities (g : Graph) (poem_id entity_type : String) : List String :=
  ((successorsOf g poem_id).filter (fun n => isType g n entity_type)).map (nameOf g)

/-- `_get_narrative_connections`: one record per `narrative_connection`
    edge to a poem successor. -/
def narrativeConnRecords (g : Graph) (poem_id : String) : List Val :=
  ((successorsOf g poem_id).filter (fun n => isType g n "poem")).flatMap (fun succ =>
    ((g.edges.filter (fun e => e.src == poem_id && e.tgt == succ)).filter
        (fun e => edgeType e == some "narrative_connection")).map (fun e =>
      .dict [("target_poem_id", .s succ),
             ("connection_type", (findAttr e.attrs "connection_type").getD .null),
             ("strength", (findAttr e.attrs "strength").getD .null),
             ("notes", (findAttr e.attrs "notes").getD .null)]))

/-- `get_poem`: `None` if the id is absent, else the node's attribute
    dict augmented with the five recomputed lists.  The source performs
    no check that the node is a poem. -/
def get_poem (g : Graph) (poem_id : String) : Option Attrs :=
  match nodeAttrs g poem_id with
  | none => none
  | some node_data =>
    let d0 := setAttr node_data "themes"
      (.arr ((get_connected_entities g poem_id "theme").map .s))
    let d1 := setAttr d0 "imagery"
      (.arr ((get_connected_entities g poem_id "imagery").map .s))
    let d2 := setAttr d1 "emotions"
      (.arr ((get_connected_entities g poem_id "emotion").map .s))
    let d3 := setAttr d2 "sound_devices"
      (.arr ((get_connected_entities g poem_id "sound_device").map .s))
    some (setAttr d3 "narrative_connections" (.arr (narrativeConnRecords g poem_id)))

/-- `_set_narrative_role`: `False` if the id is absent or not a poem. -/
def set_narrative_role (g : Graph) (poem_id role : String) : Graph × Bool :=
  if !(hasNode g poem_id) then (g, false)
  else if !(nodeType g poem_id == some "poem") then (g, false)
  else
    ({ g with nodes := g.nodes.map (fun p =>
        if p.1 == poem_id then (p.1, setAttr p.2 "narrative_role" (.s role)) else p) },
     true)

/-- `create_narrative_connection`: `False` if either endpoint is absent. -/
def create_narrative_connection (g : Graph)
    (now source_poem_id target_poem_id connection_type : String)
    (strength : Rat) (notes : Val) : Graph × Bool :=
  if !(hasNode g source_poem_id && hasNode g target_poem_id) then (g, false)
  else
    (addEdge g source_poem_id target_poem_id
      [("type", .s "narrative_connection"), ("connection_type", .s connection_type),
       ("strength", .q strength), ("notes", notes), ("created_at", .s now)],
     true)

def isNarrEdge (e : Edge) (u v : String) : Bool :=
  e.src == u && e.tgt == v && edgeType e == some "narrative_connection"

/-- `remove_narrative_connection`: removes every `narrative_connection`
    edge between the ordered pair, `True` iff at least one was removed. -/
def remove_narrative_connection (g : Graph)
    (source_poem_id target_poem_id : String) : Graph × Bool :=
  if !(hasNode g source_poem_id && hasNode g target_poem_id) then (g, false)
  else if hasEdge g source_poem_id target_poem_id then
    ({ g with edges :=
        g.edges.filter (fun e => !(isNarrEdge e source_poem_id target_poem_id)) },
     g.edges.any (fun e => isNarrEdge e source_poem_id target_poem_id))
  else (g, false)

def entityTypeNames : List String := ["theme", "imagery", "emotion", "sound_device"]

/-- `remove_poem`.  Note: when deciding whether an entity is orphaned the
    source inspects `self.graph.neighbors(entity_id)`, which on a
    directed graph iterates the entity's successors. -/
def remove_poem (g : Graph) (poem_id : String)
    (cleanup_orphaned_entities : Bool) : Graph × Bool :=
  if !(hasNode g poem_id) then (g, false)
  else if !(nodeType g poem_id == some "poem") then (g, false)
  else
    let connected_entities :=
      if cleanup_orphaned_entities then
        (successorsOf g poem_id).filter (fun n =>
          match nodeType g n with
          | some t => entityTypeNames.contains t
          | none => false)
      else []
    let g1 := removeNode g poem_id
    let g2 :=
      if cleanup_orphaned_entities then
        connected_entities.foldl (fun h eid =>
          if hasNode h eid then
            if (successorsOf h eid).any (fun n => isType h n "poem") then h
            else removeNode h eid
          else h) g1
      else g1
    (g2, true)

/-! Canon analytics (`extended_poetry_graph.py`, query operations). -/

/-- Result record of `_get_entities_by_frequency` / `get_inverse_pattern`
    (the `used_by_routes` / `created_at` display fields, which no query
    or builder reads, are not modelled). -/
structure EntityRec where
  id : String
  name : String
  usage_count : Int
deriving DecidableEq

/-- Stable insert for a descending sort: the new element passes over
    exactly the elements with a strictly smaller key. -/
def insertDescBy {α β : Type} [LinearOrder β] (key : α → β) (x : α) :
    List α → List α
  | [] => [x]
  | y :: ys => if key y < key x then x :: y :: ys else y :: insertDescBy key x ys

/-- Python `sorted(..., key=key, reverse=True)`: stable, descending. -/
def sortDescBy {α β : Type} [LinearOrder β] (key : α → β) (l : List α) : List α :=
  l.foldl (fun acc x => insertDescBy key x acc) []

/-- `sorted(entities, key=lambda x: x["usage_count"], reverse=True)`. -/
def sortByUsageDesc (l : List EntityRec) : List EntityRec :=
  sortDescBy EntityRec.usage_count l

/-- `_get_entities_by_frequency`. -/
def entities_by_frequency (g : Graph) (entity_type : String)
    (min_freq max_freq : Option Int) : List EntityRec :=
  sortByUsageDesc ((g.nodes.filter (fun p =>
      isType g p.1 entity_type
      && (match min_freq with | some m => decide (m ≤ usageOf g p.1) | none => true)
      && (match max_freq with | some m => decide (usageOf g p.1 ≤ m) | none => true))).map
    (fun p => ⟨p.1, nameOf g p.1, usageOf g p.1⟩))

def get_canonical_themes (g : Graph) (min_frequency : Int) : List EntityRec :=
  entities_by_frequency g "theme" (some min_frequency) none

def get_rare_themes (g : Graph) (max_frequency : Int) : List EntityRec :=
  entities_by_frequency g "theme" (some 0) (some max_frequency)

def get_canonical_sound_devices (g : Graph) (min_frequency : Int) : List EntityRec :=
  entities_by_frequency g "sound_device" (some min_frequency) none

def get_rare_sound_devices (g : Graph) (max_frequency : Int) : List EntityRec :=
  entities_by_frequency g "sound_device" (some 0) (some max_frequency)

def poemNodeIds (g : Graph) : List String :=
  (g.nodes.filter (fun p => isType g p.1 "poem")).map Prod.fst

def nodesOfType (g : Graph) (ty : String) : List String :=
  (g.nodes.filter (fun p => isType g p.1 ty)).map Prod.fst

/-- The `existing_combos` set of `get_unexplored_combinations` (as a
    list used only through membership). -/
def existingCombos (g : Graph) (entity_type_1 entity_type_2 : String) :
    List (String × String) :=
  (poemNodeIds g).flatMap (fun pid =>
    let entities_1 := (successorsOf g pid).filter (fun n => isType g n entity_type_1)
    let entities_2 := (successorsOf g pid).filter (fun n => isType g n entity_type_2)
    entities_1.flatMap (fun e1 => entities_2.map (fun e2 => (e1, e2))))

/-- One result record of `get_unexplored_combinations` (its dict keys are
    derived from the two entity-type names; the fields capture the values
    in order). -/
structure ComboRec where
  name1 : String
  id1 : String
  name2 : String
  id2 : String
  usage1 : Int
  usage2 : Int
deriving DecidableEq

def mkCombo (g : Graph) (e1 e2 : String) : ComboRec :=
  ⟨nameOf g e1, e1, nameOf g e2, e2, usageOf g e1, usageOf g e2⟩

/-- The nested loop of `get_unexplored_combinations`: skip observed
    pairs, append, and return as soon as `len(unexplored) >= limit`
    (the length test runs only after an append, as in the source). -/
def comboLoop (g : Graph) (ex : List (String × String)) (limit : Nat) :
    List (String × String) → List ComboRec → List ComboRec
  | [], acc => acc
  | (e1, e2) :: rest, acc =>
    if ex.contains (e1, e2) then comboLoop g ex limit rest acc
    else
      let acc' := acc ++ [mkCombo g e1 e2]
      if limit ≤ acc'.length then acc'
      else comboLoop g ex limit rest acc'

def get_unexplored_combinations (g : Graph) (entity_type_1 entity_type_2 : String)
    (limit : Nat) : List ComboRec :=
  comboLoop g (existingCombos g entity_type_1 entity_type_2) limit
    ((nodesOfType g entity_type_1).flatMap (fun e1 =>
      (nodesOfType g entity_type_2).map (fun e2 => (e1, e2)))) []

/-- The `current_patterns` set of `get_inverse_pattern`: `pattern_type`
    successors of the poem predecessors of `entity_id`. -/
def currentPatterns (g : Graph) (entity_id pattern_type : String) : List String :=
  ((predecessorsOf g entity_id).filter (fun p => isType g p "poem")).flatMap
    (fun p => (successorsOf g p).filter (fun n => isType g n pattern_type))

/-- `get_inverse_pattern`. -/
def get_inverse_pattern (g : Graph) (entity_id pattern_type : String) : List EntityRec :=
  if !(hasNode g entity_id) then []
  else
    sortByUsageDesc
      (((nodesOfType g pattern_type).filter
          (fun pid => !((currentPatterns g entity_id pattern_type).contains pid))).map
        (fun pid => ⟨pid, nameOf g pid, usageOf g pid⟩))

/-! Structure queries. -/

def poemsOfRoute (g : Graph) (route_id : String) : List (String × Attrs) :=
  g.nodes.filter (fun p => isType g p.1 "poem"
    && (match findAttr p.2 "route_id" with
        | some (.s r) => r == route_id
        | _ => false))

/-- `poem_data.get("metadata", {}).get("structure", {})["line_count"]`
    when present (line counts are integers). -/
def lineCountOf (a : Attrs) : Option Int :=
  match findAttr a "metadata" with
  | some (.dict md) =>
    match findAttr md "structure" with
    | some (.dict st) =>
      match findAttr st "line_count" with
      | some (.i n) => some n
      | _ => none
    | _ => none
  | _ => none

/-- The `line_counts` list collected by `get_free_verse_metrics_by_route`. -/
def lineCountsOfRoute (g : Graph) (route_id : String) : List Int :=
  (poemsOfRoute g route_id).filterMap (fun p => lineCountOf p.2)

noncomputable def popMean (line_counts : List Int) : ℝ :=
  ((line_counts.map (Int.cast : Int → ℝ)).sum) / line_counts.length

noncomputable def popVariance (line_counts : List Int) : ℝ :=
  ((line_counts.map (fun x => ((Int.cast x : ℝ) - popMean line_counts) ^ 2)).sum)
    / line_counts.length

noncomputable def popStd (line_counts : List Int) : ℝ :=
  Real.sqrt (popVariance line_counts)

/-- The arithmetic tail of `get_structural_diversity_score`, from the
    collected line counts on. -/
noncomputable def diversityFromCounts (line_counts : List Int) : ℝ :=
  if line_counts.length < 2 then 0
  else if popMean line_counts = 0 then 0
  else min (popStd line_counts / popMean line_counts * 2) 1

/-- `get_structural_diversity_score`. -/
noncomputable def get_structural_diversity_score (g : Graph) (route_id : String) : ℝ :=
  if (poemsOfRoute g route_id).length < 2 then 0
  else diversityFromCounts (lineCountsOfRoute g route_id)

/-! Persistence (`save_graph` / `load_graph` in JSON format).  The JSON
text itself is produced by `json.dump` and consumed by `json.load`,
which are identities on the document; we model the node-link document
(`nx.node_link_data` / `nx.node_link_graph`). -/

/-- Multigraph keys emitted with each edge: the number of earlier
    parallel edges between the same ordered pair. -/
def withKeys (edges : List Edge) : List (Edge × Nat) :=
  edges.foldl (fun acc e =>
    acc ++ [(e, (acc.filter (fun p => p.1.src == e.src && p.1.tgt == e.tgt)).length)]) []

/-- `nx.node_link_data`: each node dict is its attribute bag plus `id`,
    each link dict its bag plus `source`/`target`/`key`. -/
def node_link_data (g : Graph) : Val :=
  .dict [("directed", .b true), ("multigraph", .b true), ("graph", .dict []),
         ("nodes", .arr (g.nodes.map (fun p => .dict (p.2 ++ [("id", .s p.1)])))),
         ("links", .arr ((withKeys g.edges).map (fun pk =>
            .dict (pk.1.attrs ++
              [("source", .s pk.1.src), ("target", .s pk.1.tgt), ("key", .i pk.2)]))))]

def stripKeys (d : Attrs) (ks : List String) : Attrs :=
  d.filter (fun p => !(ks.contains p.1))

def parseNode (v : Val) : Option (String × Attrs) :=
  match v with
  | .dict d =>
    match findAttr d "id" with
    | some (.s i) => some (i, stripKeys d ["id"])
    | _ => none
  | _ => none

def parseEdge (v : Val) : Option (String × String × Attrs) :=
  match v with
  | .dict d =>
    match findAttr d "source", findAttr d "target" with
    | some (.s u), some (.s w) => some (u, w, stripKeys d ["source", "target", "key"])
    | _, _ => none
  | _ => none

/-- Parse every element of a list, failing if any element fails. -/
def parseList {α : Type} (h : Val → Option α) : List Val → Option (List α)
  | [] => some []
  | v :: vs =>
    match h v, parseList h vs with
    | some x, some xs => some (x :: xs)
    | _, _ => none

/-- `nx.node_link_graph(data, directed=True, multigraph=True)`: re-add
    every node, then every edge. -/
def node_link_graph (v : Val) : Option Graph :=
  match v with
  | .dict d =>
    match findAttr d "nodes", findAttr d "links" with
    | some (.arr ns), some (.arr ls) =>
      match parseList parseNode ns, parseList parseEdge ls with
      | some nodeRecs, some linkRecs =>
        let g0 := nodeRecs.foldl (fun h p => addNode h p.1 p.2) Graph.empty
        some (linkRecs.foldl (fun h e => addEdge h e.1 e.2.1 e.2.2) g0)
      | _, _ => none
    | _, _ => none
  | _ => none

/-! Narrative engine constants and stance (`poetry/narrative_engine.py`). -/

def central_themes : List String :=
  ["urban surveillance and observation", "movement as freedom and control",
   "community formation in transit spaces", "technology mediating human connection",
   "the politics of public space"]

def core_motifs : List String :=
  ["watching eyes", "mechanical birds", "voices in motion", "windows as frames",
   "rhythmic cycles", "intersections", "barriers and passages", "collective breath"]

def canon_fragments : List String :=
  ["the city breathes through its arteries of motion",
   "each journey is a negotiation with power",
   "we are witnessed by glass and steel",
   "transit reveals who belongs where",
   "movement creates temporary communities"]

def get_narrative_stance (story_influence : Rat) : String :=
  if story_influence ≤ 3/10 then "opposing"
  else if 7/10 ≤ story_influence then "supporting"
  else "ambivalent"

/-- The motif / fragment fields of `apply_story_influence` (the
    emotional-tone string, which depends only on display personality
    fields, is not read by the adherence scoring). -/
structure NarrativeData where
  emphasized_motifs : List String
  rejected_motifs : List String
  fragments : List String

def apply_story_influence_data (stance : String) : NarrativeData :=
  if stance == "supporting" then
    ⟨core_motifs.take 3, [], canon_fragments.take 2⟩
  else if stance == "opposing" then
    ⟨["freedom from surveillance", "escape routes", "hidden spaces"],
     core_motifs.take 2,
     ["this route refuses to be catalogued", "movement without witness"]⟩
  else
    ⟨(core_motifs.drop 1).take 2, core_motifs.take 1,
     ["sometimes watched, sometimes free"]⟩

/-! Adherence evaluator (`scripts/test_narrative_adherence.py`).  The
external analyzer result is passed in as data. -/

/-- The fields of an external `analyze_poem` result that the scoring
    reads. -/
structure PoemAnalysis where
  themes : List String
  imagery : List String
  emotions : List String
deriving DecidableEq

/-- Python `needle in hay` substring test. -/
def strContains (hay needle : String) : Bool :=
  hay.data.tails.any (fun t => needle.data.isPrefixOf t)

/-- Lower-cased Python set of a list (distinct lowered elements). -/
def lowerDedup (l : List String) : List String := (l.map lowerStr).dedup

/-- Size of `{x.lower() for x in xs} & {y.lower() for y in ys}`. -/
def interCount (xs ys : List String) : Nat :=
  ((lowerDedup xs).filter (fun x => (ys.map lowerStr).contains x)).length

/-- `_calculate_theme_alignment`. -/
def calculate_theme_alignment (poem_themes : List String) (expected_stance : String) : Rat :=
  let overlap : Rat := (interCount poem_themes central_themes : Nat)
  if expected_stance == "supporting" then min 1 (overlap / 2)
  else if expected_stance == "opposing" then max 0 (1 - overlap / 2)
  else if overlap = 1 then 1
  else if overlap = 0 then 7/10
  else 1/2

/-- `_calculate_motif_score`. -/
def calculate_motif_score (poem_imagery expected_motifs rejected_motifs : List String) : Rat :=
  if expected_motifs = [] ∧ rejected_motifs = [] then 1
  else
    let imgL := lowerDedup poem_imagery
    let expL := lowerDedup expected_motifs
    let rejL := lowerDedup rejected_motifs
    let expected_found : Nat := (imgL.filter (fun im =>
        expL.any (fun ex => strContains im ex || strContains ex im))).length
    let rejected_found : Nat := (imgL.filter (fun im =>
        rejL.any (fun rj => strContains im rj || strContains rj im))).length
    let expected_score : Rat :=
      min 1 ((expected_found : Rat) / ((max 1 expected_motifs.dedup.length : Nat) : Rat))
    max 0 (expected_score - (rejected_found : Rat) * (3/10))

def surveillance_emotions : List String :=
  ["anxious", "tense", "watchful", "paranoid", "uncomfortable"]

def freedom_emotions : List String :=
  ["peaceful", "liberated", "defiant", "free", "rebellious"]

def ambivalent_emotions : List String :=
  ["conflicted", "uncertain", "contemplative", "complex"]

/-- `_calculate_emotion_alignment`. -/
def calculate_emotion_alignment (poem_emotions : List String) (expected_stance : String) : Rat :=
  let emoL := lowerDedup poem_emotions
  let denom : Rat := ((max 1 poem_emotions.dedup.length : Nat) : Rat)
  if expected_stance == "supporting" then
    ((emoL.filter (fun e => surveillance_emotions.contains e)).length : Rat) / denom
  else if expected_stance == "opposing" then
    ((emoL.filter (fun e => freedom_emotions.contains e)).length : Rat) / denom
  else
    ((emoL.filter (fun e => ambivalent_emotions.contains e)).length : Rat) / denom

/-- Helper for Python `str.split()`: words are maximal runs of
    non-whitespace characters. -/
def splitWSAux (cur : List Char) : List Char → List String
  | [] => if cur.isEmpty then [] else [⟨cur.reverse⟩]
  | c :: cs =>
    if c.isWhitespace then
      if cur.isEmpty then splitWSAux [] cs
      else ⟨cur.reverse⟩ :: splitWSAux [] cs
    else splitWSAux (c :: cur) cs

/-- Python `str.split()`: split on whitespace runs, dropping empties. -/
def splitWhitespace (s : String) : List String :=
  splitWSAux [] s.data

/-- One fragment test of `_check_narrative_fragments`: at least half of
    the significant words (length > 3) occur in the lowered text
    (`words_found >= len(key_words) * 0.5`, i.e. `len ≤ 2 * found`). -/
def fragmentMatches (poem_text_lower : String) (fragment : String) : Bool :=
  let key_words := (splitWhitespace (lowerStr fragment)).filter (fun w => 3 < w.length)
  let words_found := key_words.countP (fun w => strContains poem_text_lower w)
  decide (key_words.length ≤ 2 * words_found)

/-- `_check_narrative_fragments`. -/
def check_narrative_fragments (poem_text : String) (expected_fragments : List String) : Rat :=
  if expected_fragments = [] then 1
  else
    ((expected_fragments.countP (fun f => fragmentMatches (lowerStr poem_text) f)) : Rat)
      / (expected_fragments.length : Rat)

/-- `_analyze_poem_adherence` (given the analyzer output): the weighted
    sum `0.4*theme + 0.3*motif + 0.2*emotion + 0.1*fragment`. -/
def analyze_poem_adherence (poem_text : String) (analysis : PoemAnalysis)
    (expected_stance : String) (nd : NarrativeData) : Rat :=
  let theme_alignment := calculate_theme_alignment analysis.themes expected_stance
  let motif_score :=
    calculate_motif_score analysis.imagery nd.emphasized_motifs nd.rejected_motifs
  let emotion_score := calculate_emotion_alignment analysis.emotions expected_stance
  let fragment_score := check_narrative_fragments poem_text nd.fragments
  theme_alignment * (4/10) + motif_score * (3/10)
    + emotion_score * (2/10) + fragment_score * (1/10)

/-- The result bucketing of `test_route_narrative_adherence`. -/
def adherence_result (avg_adherence_score : Rat) : String :=
  if 8/10 ≤ avg_adherence_score then "HIGH_ADHERENCE"
  else if 6/10 ≤ avg_adherence_score then "MODERATE_ADHERENCE"
  else if 4/10 ≤ avg_adherence_score then "LOW_ADHERENCE"
  else "POOR_ADHERENCE"

/-- Per-poem adherence scores of a route (each poem given as its text
    plus its analyzer output). -/
def route_adherence_scores (poems : List (String × PoemAnalysis))
    (expected_stance : String) (nd : NarrativeData) : List Rat :=
  poems.map (fun p => analyze_poem_adherence p.1 p.2 expected_stance nd)

def avg_adherence (scores : List Rat) : Rat :=
  scores.sum / (scores.length : Rat)

/-! Constraint builder (`poetry/prompt_builder.py`).  The builders'
display-only output fields (structure hints, co-occurrence tables,
unexplored imagery, avoid flags) are not read by any claim; the record
models the selected themes, sound devices, approach and rationale. -/

structure Personality where
  loyalty_to_canon : Rat
  rebellious_mode : Option String
  sound_preferences : List (String × Rat)
  theme_affinities : List (String × Rat)

/-- Python `dict.get(k, d)` over a preference table. -/
def prefGet (l : List (String × Rat)) (k : String) (d : Rat) : Rat :=
  (List.lookup k l).getD d

structure Constraints where
  themes : List String
  sound_devices : List String
  approach : String
  rationale : String

/-- `_select_with_affinity`: score by affinity + usage/10, stable sort
    descending, take `count`. -/
def select_with_affinity (items : List EntityRec) (affinities : List (String × Rat))
    (count : Nat) : List EntityRec :=
  match items with
  | [] => []
  | _ =>
    ((sortDescBy Prod.fst (items.map (fun it =>
        (prefGet affinities it.name 0 + (it.usage_count : Rat) / 10, it)))).take count).map
      Prod.snd

def joinComma (l : List String) : String := String.intercalate ", " l

/-- `_build_loyal_constraints` (selection and rationale). -/
def build_loyal_constraints (g : Graph) (personality : Personality) : Constraints :=
  let canonical_themes := get_canonical_themes g 3
  let canonical_sounds := get_canonical_sound_devices g 2
  let selected_themes := select_with_affinity canonical_themes personality.theme_affinities 3
  let selected_sounds := select_with_affinity canonical_sounds personality.sound_preferences 2
  { themes := selected_themes.map EntityRec.name,
    sound_devices := selected_sounds.map EntityRec.name,
    approach := "canonical",
    rationale := "Following established patterns with "
      ++ joinComma ((selected_themes.take 2).map EntityRec.name) ++ " themes" }

/-- Python `sorted(d.items(), key=value, reverse=True)`. -/
def sortPrefsDesc (l : List (String × Rat)) : List (String × Rat) :=
  sortDescBy Prod.snd l

/-- `_build_ignore_constraints`. -/
def build_ignore_constraints (g : Graph) (personality : Personality) : Constraints :=
  let rare_themes := get_rare_themes g 2
  let rare_sounds := get_rare_sound_devices g 1
  let selected_themes :=
    (match rare_themes with
     | [] => []
     | t :: _ => [t.name])
    ++ ((sortPrefsDesc personality.theme_affinities).take 2).map Prod.fst
  let fromPrefs := ((sortPrefsDesc personality.sound_preferences).take 2).map Prod.fst
  let selected_sounds :=
    match fromPrefs with
    | [] => (rare_sounds.take 2).map EntityRec.name
    | _ => fromPrefs
  { themes := selected_themes.take 3,
    sound_devices := selected_sounds,
    approach := "ignore_canon",
    rationale := "Exploring underutilized territory with rare themes and sounds" }

/-- `_build_balanced_constraints`. -/
def build_balanced_constraints (g : Graph) (personality : Personality) : Constraints :=
  let canonical_themes := get_canonical_themes g 2
  let unexplored := get_unexplored_combinations g "theme" "sound_device" 5
  let themes :=
    (match canonical_themes with | [] => [] | c :: _ => [c.name])
    ++ (match unexplored with | [] => [] | u :: _ => [u.name1])
  { themes := themes,
    sound_devices := ((sortPrefsDesc personality.sound_preferences).take 2).map Prod.fst,
    approach := "balanced",
    rationale := "Balancing established patterns with fresh exploration" }

/-- `_build_invert_constraints`. -/
def build_invert_constraints (g : Graph) (personality : Personality) : Constraints :=
  match get_canonical_themes g 3 with
  | [] => build_balanced_constraints g personality
  | primary_theme :: _ =>
    let inverse_sounds := get_inverse_pattern g primary_theme.id "sound_device"
    let selected_sounds :=
      match inverse_sounds with
      | [] => []
      | s0 :: srest =>
        s0 :: (match srest.find? (fun (s : EntityRec) =>
            (List.lookup s.name personality.sound_preferences).isSome) with
          | some s => [s]
          | none => [])
    { themes := [primary_theme.name],
      sound_devices := ((selected_sounds.take 2).map EntityRec.name),
      approach := "invert_canon",
      rationale := "Using canonical theme '" ++ primary_theme.name
        ++ "' with unexpected sound devices to create contrast" }

/-- `combo_score` inside `_build_create_new_constraints`:
    `sound_preferences.get(name, 0.5) + theme_affinities.get(name, 0.5)`. -/
def comboScore (personality : Personality) (c : ComboRec) : Rat :=
  prefGet personality.sound_preferences c.name2 (1/2)
    + prefGet personality.theme_affinities c.name1 (1/2)

/-- `_build_create_new_constraints`: first pair scoring above 1.0, else
    the first unexplored pair, else literal placeholders. -/
def build_create_new_constraints (g : Graph) (personality : Personality) : Constraints :=
  let unexplored_combos := get_unexplored_combinations g "theme" "sound_device" 10
  match unexplored_combos with
  | [] =>
    { themes := ["(introduce new theme)"],
      sound_devices := ["(introduce new sound device)"],
      approach := "create_new",
      rationale := "Pioneering unexplored combination: (introduce new theme) with (introduce new sound device)" }
  | c0 :: _ =>
    let best_combo :=
      (unexplored_combos.find? (fun c => decide ((1 : Rat) < comboScore personality c))).getD c0
    { themes := [best_combo.name1],
      sound_devices := [best_combo.name2],
      approach := "create_new",
      rationale := "Pioneering unexplored combination: " ++ best_combo.name1
        ++ " with " ++ best_combo.name2 }

/-- The strategy dispatch of `build_prompt_for_route` (step 1). -/
def choose_constraints (g : Graph) (personality : Personality) : Constraints :=
  if (7 : Rat)/10 < personality.loyalty_to_canon then build_loyal_constraints g personality
  else if personality.rebellious_mode == some "ignore" then
    build_ignore_constraints g personality
  else if personality.rebellious_mode == some "invert" then
    build_invert_constraints g personality
  else if personality.rebellious_mode == some "create_new" then
    build_create_new_constraints g personality
  else build_balanced_constraints g personality

/-! Sample graphs built through the public operations, used as concrete
instances in the claim theorems below, with sanity-check examples. -/

def gC2 : Graph :=
  add_poem Graph.empty "t0" "p1" "T1" "line one\nline two" "R1"
    ["Loss", "loss"] [] [] [] none none [] "route_generated"

example : usageOf gC2 "theme_loss" = 2 := by decide
example : (gC2.edges.filter (fun e =>
    e.src == "p1" && e.tgt == "theme_loss" && edgeType e == some "has_theme")).length = 2 := by
  decide
example : (gC2.nodes.filter (fun p => isType gC2 p.1 "theme")).map Prod.fst
    = ["theme_loss"] := by decide
example : get_connected_entities gC2 "p1" "theme" = ["Loss"] := by decide

def gC1 : Graph :=
  add_poem
    (add_poem Graph.empty "t0" "p1" "T1" "some text" "R1"
      ["urban"] [] [] [] none none [] "route_generated")
    "t1" "p2" "T2" "other text" "R2" ["urban"] [] [] [] none none [] "route_generated"

example : usageOf gC1 "theme_urban" = 2 := by decide
example : (remove_poem gC1 "p1" true).2 = true := by decide
example : hasNode (remove_poem gC1 "p1" true).1 "p1" = false := by decide
example : hasNode (remove_poem gC1 "p1" true).1 "theme_urban" = false := by decide
example : isType (remove_poem gC1 "p1" true).1 "p2" "poem" = true := by decide

def gC4 : Graph :=
  (remove_poem
    (add_poem Graph.empty "t0" "p0" "T" "x" "R" ["x"] [] [] ["y"] none none []
      "route_generated")
    "p0" false).1

example : (get_unexplored_combinations gC4 "theme" "sound_device" 0).length = 1 := by decide
example : (get_unexplored_combinations gC4 "theme" "sound_device" 1).length = 1 := by decide

def gC5 : Graph :=
  add_poem
    (add_poem Graph.empty "t0" "p1" "T1" "x" "R1" ["night"] [] [] ["alliteration"]
      none none [] "route_generated")
    "t1" "p2" "T2" "y" "R2" [] [] [] ["sibilance", "echo"] none none [] "route_generated"

example : (get_inverse_pattern gC5 "theme_night" "sound_device").map EntityRec.id
    = ["sound_sibilance", "sound_echo"] := by decide
example : get_inverse_pattern gC5 "theme_missing" "sound_device" = [] := by decide

def gC3 : Graph :=
  (create_narrative_connection
    (create_narrative_connection
      (add_poem
        (add_poem Graph.empty "t0" "p1" "T1" "x" "R1" ["urban", "Urban"] ["rain"]
          ["calm"] ["alliteration"] none none [] "route_generated")
        "t1" "p2" "T2" "y" "R2" ["urban"] [] [] [] none none [] "core")
      "t2" "p1" "p2" "thematic_echo" 1 .null).1
    "t3" "p1" "p2" "response" (1/2) .null).1

example : node_link_graph (node_link_data gC3) = some gC3 := by rfl

/-! Helper lemmas about the embedding. -/

theorem insertDescBy_perm {α β : Type} [LinearOrder β] (key : α → β) (x : α)
    (l : List α) : (insertDescBy key x l).Perm (x :: l) := by
  induction l with
  | nil => simp [insertDescBy]
  | cons y ys ih =>
    by_cases h : key y < key x
    · simp [insertDescBy, h]
    · simp only [insertDescBy, if_neg h]
      exact (ih.cons y).trans (List.Perm.swap x y ys)

theorem foldl_insertDescBy_perm {α β : Type} [LinearOrder β] (key : α → β) :
    ∀ (l acc : List α),
      (l.foldl (fun acc x => insertDescBy key x acc) acc).Perm (l ++ acc) := by
  intro l
  induction l with
  | nil => intro acc; simp
  | cons x xs ih =>
    intro acc
    simp only [List.foldl_cons, List.cons_append]
    have h1 := ih (insertDescBy key x acc)
    have h2 : (xs ++ insertDescBy key x acc).Perm (xs ++ x :: acc) :=
      List.Perm.append_left xs (insertDescBy_perm key x acc)
    exact (h1.trans h2).trans List.perm_middle

theorem sortDescBy_perm {α β : Type} [LinearOrder β] (key : α → β) (l : List α) :
    (sortDescBy key l).Perm l := by
  have h := foldl_insertDescBy_perm key l []
  simpa [sortDescBy] using h

theorem insertDescBy_pairwise {α β : Type} [LinearOrder β] (key : α → β) (x : α)
    (l : List α) (h : l.Pairwise (fun a b => key b ≤ key a)) :
    (insertDescBy key x l).Pairwise (fun a b => key b ≤ key a) := by
  induction l with
  | nil => simp [insertDescBy]
  | cons y ys ih =>
    rcases List.pairwise_cons.mp h with ⟨hy, hys⟩
    by_cases hc : key y < key x
    · simp only [insertDescBy, if_pos hc]
      refine List.pairwise_cons.mpr ⟨?_, h⟩
      intro z hz
      rcases List.mem_cons.mp hz with rfl | hz
      · exact le_of_lt hc
      · exact le_trans (hy z hz) (le_of_lt hc)
    · simp only [insertDescBy, if_neg hc]
      refine List.pairwise_cons.mpr ⟨?_, ih hys⟩
      intro z hz
      have hz' := (insertDescBy_perm key x ys).mem_iff.mp hz
      rcases List.mem_cons.mp hz' with rfl | hz''
      · exact le_of_not_lt hc
      · exact hy z hz''

theorem sortDescBy_pairwise {α β : Type} [LinearOrder β] (key : α → β) (l : List α) :
    (sortDescBy key l).Pairwise (fun a b => key b ≤ key a) := by
  have main : ∀ (l acc : List α), acc.Pairwise (fun a b => key b ≤ key a) →
      (l.foldl (fun acc x => insertDescBy key x acc) acc).Pairwise
        (fun a b => key b ≤ key a) := by
    intro l
    induction l with
    | nil => intro acc hacc; simpa using hacc
    | cons x xs ih =>
      intro acc hacc
      simp only [List.foldl_cons]
      exact ih _ (insertDescBy_pairwise key x acc hacc)
  exact main l [] (by simp)

theorem lookup_mem {β : Type} : ∀ {l : List (String × β)} {k : String} {v : β},
    List.lookup k l = some v → (k, v) ∈ l := by
  intro l
  induction l with
  | nil => intro k v h; simp [List.lookup] at h
  | cons p rest ih =>
    intro k v h
    obtain ⟨k', v'⟩ := p
    rw [List.lookup] at h
    cases hk : (k == k') with
    | true =>
      rw [hk] at h
      obtain rfl : v' = v := by injection h
      obtain rfl : k = k' := by simpa [beq_iff_eq] using hk
      exact List.mem_cons_self _ _
    | false =>
      rw [hk] at h
      exact List.mem_cons_of_mem _ (ih h)

theorem lookup_isSome_of_mem {β : Type} : ∀ {l : List (String × β)} {k : String} {v : β},
    (k, v) ∈ l → (List.lookup k l).isSome := by
  intro l
  induction l with
  | nil => intro k v h; simp at h
  | cons p rest ih =>
    intro k v h
    obtain ⟨k', v'⟩ := p
    rw [List.lookup]
    cases hk : (k == k') with
    | true => rfl
    | false =>
      show (List.lookup k rest).isSome = true
      rcases List.mem_cons.mp h with heq | hmem
      · have hkk : k = k' := congrArg Prod.fst heq
        exact absurd (by simpa [beq_iff_eq] using hkk : (k == k') = true) (by simp [hk])
      · exact ih hmem

theorem hasNode_iff_mem (g : Graph) (id : String) :
    hasNode g id = true ↔ ∃ a, (id, a) ∈ g.nodes := by
  simp only [hasNode, List.any_eq_true, beq_iff_eq]
  constructor
  · rintro ⟨p, hp, rfl⟩
    exact ⟨p.2, hp⟩
  · rintro ⟨a, ha⟩
    exact ⟨(id, a), ha, rfl⟩

theorem hasNode_iff_nodeAttrs (g : Graph) (id : String) :
    hasNode g id = true ↔ ∃ a, nodeAttrs g id = some a := by
  rw [hasNode_iff_mem]
  constructor
  · rintro ⟨a, ha⟩
    have := lookup_isSome_of_mem ha
    exact ⟨(List.lookup id g.nodes).get this, by simp [nodeAttrs]⟩
  · rintro ⟨a, ha⟩
    exact ⟨a, lookup_mem ha⟩

theorem hasNode_false_iff (g : Graph) (id : String) :
    hasNode g id = false ↔ nodeAttrs g id = none := by
  rw [← Bool.not_eq_true, not_iff_comm, ← Ne, Option.ne_none_iff_exists']
  exact (hasNode_iff_nodeAttrs g id).symm

theorem mem_firstDedupAux (x : String) : ∀ (l seen : List String),
    x ∈ firstDedupAux seen l ↔ (x ∈ l ∧ x ∉ seen) := by
  intro l
  induction l with
  | nil => intro seen; simp [firstDedupAux]
  | cons y ys ih =>
    intro seen
    rw [firstDedupAux]
    by_cases hy : y ∈ seen
    · rw [if_pos (List.elem_iff.mpr hy), ih]
      constructor
      · rintro ⟨hmem, hns⟩
        exact ⟨List.mem_cons_of_mem _ hmem, hns⟩
      · rintro ⟨hmem, hns⟩
        rcases List.mem_cons.mp hmem with rfl | hmem'
        · exact absurd hy hns
        · exact ⟨hmem', hns⟩
    · rw [if_neg (fun hc => hy (List.elem_iff.mp hc))]
      constructor
      · intro hmem
        rcases List.mem_cons.mp hmem with rfl | hmem'
        · exact ⟨List.mem_cons_self _ _, hy⟩
        · rcases (ih (y :: seen)).mp hmem' with ⟨hys, hns⟩
          exact ⟨List.mem_cons_of_mem _ hys, fun hc => hns (List.mem_cons_of_mem _ hc)⟩
      · rintro ⟨hmem, hns⟩
        rcases List.mem_cons.mp hmem with rfl | hmem'
        · exact List.mem_cons_self _ _
        · by_cases hxy : x = y
          · subst hxy; exact List.mem_cons_self _ _
          · refine List.mem_cons_of_mem _ ((ih (y :: seen)).mpr ⟨hmem', ?_⟩)
            intro hc
            rcases List.mem_cons.mp hc with rfl | hc'
            · exact hxy rfl
            · exact hns hc'

theorem mem_firstDedup (x : String) (l : List String) :
    x ∈ firstDedup l ↔ x ∈ l := by
  rw [firstDedup, mem_firstDedupAux]
  simp

theorem mem_successorsOf (g : Graph) (u x : String) :
    x ∈ successorsOf g u ↔ hasEdge g u x = true := by
  simp only [successorsOf, mem_firstDedup, List.mem_map, List.mem_filter,
    hasEdge, List.any_eq_true, Bool.and_eq_true, beq_iff_eq]
  constructor
  · rintro ⟨e, ⟨he, hsrc⟩, rfl⟩
    exact ⟨e, he, hsrc, rfl⟩
  · rintro ⟨e, he, hsrc, htgt⟩
    exact ⟨e, ⟨he, hsrc⟩, htgt⟩

theorem mem_predecessorsOf (g : Graph) (v x : String) :
    x ∈ predecessorsOf g v ↔ hasEdge g x v = true := by
  simp only [predecessorsOf, mem_firstDedup, List.mem_map, List.mem_filter,
    hasEdge, List.any_eq_true, Bool.and_eq_true, beq_iff_eq]
  constructor
  · rintro ⟨e, ⟨he, htgt⟩, rfl⟩
    exact ⟨e, he, rfl, htgt⟩
  · rintro ⟨e, he, hsrc, htgt⟩
    exact ⟨e, ⟨he, htgt⟩, hsrc⟩

theorem isType_hasNode {g : Graph} {id ty : String} (h : isType g id ty = true) :
    hasNode g id = true := by
  rw [hasNode_iff_nodeAttrs]
  simp only [isType, beq_iff_eq, nodeType] at h
  rcases ha : nodeAttrs g id with _ | a
  · rw [ha] at h; exact absurd h (by simp)
  · exact ⟨a, rfl⟩

theorem mem_nodesOfType (g : Graph) (ty x : String) :
    x ∈ nodesOfType g ty ↔ isType g x ty = true := by
  simp only [nodesOfType, List.mem_map, List.mem_filter]
  constructor
  · rintro ⟨p, ⟨hp, ht⟩, rfl⟩
    exact ht
  · intro ht
    have hn := isType_hasNode ht
    rcases (hasNode_iff_mem g x).mp hn with ⟨a, ha⟩
    exact ⟨(x, a), ⟨ha, ht⟩, rfl⟩

theorem poemNodeIds_eq_nodesOfType (g : Graph) :
    poemNodeIds g = nodesOfType g "poem" := rfl

/-- Some poem node has an edge to each of the two given entity ids. -/
def PoemConnectsBoth (g : Graph) (a b : String) : Prop :=
  ∃ pid ∈ poemNodeIds g, hasEdge g pid a = true ∧ hasEdge g pid b = true

instance (g : Graph) (a b : String) : Decidable (PoemConnectsBoth g a b) := by
  unfold PoemConnectsBoth
  infer_instance

theorem mem_existingCombos (g : Graph) (t1 t2 a b : String) :
    (a, b) ∈ existingCombos g t1 t2
      ↔ isType g a t1 = true ∧ isType g b t2 = true ∧ PoemConnectsBoth g a b := by
  simp only [existingCombos, List.mem_flatMap, List.mem_map, List.mem_filter,
    PoemConnectsBoth, mem_successorsOf, Prod.mk.injEq]
  constructor
  · rintro ⟨pid, hpid, e1, ⟨he1, ht1⟩, e2, ⟨he2, ht2⟩, rfl, rfl⟩
    exact ⟨ht1, ht2, pid, hpid, he1, he2⟩
  · rintro ⟨ht1, ht2, pid, hpid, he1, he2⟩
    exact ⟨pid, hpid, a, ⟨he1, ht1⟩, b, ⟨he2, ht2⟩, rfl, rfl⟩

theorem comboLoop_eq (g : Graph) (ex : List (String × String)) (limit : Nat) :
    ∀ (pairs : List (String × String)) (acc : List ComboRec),
    acc.length < limit →
    comboLoop g ex limit pairs acc
      = acc ++ ((pairs.filter (fun p => !(ex.contains p))).take
          (limit - acc.length)).map (fun p => mkCombo g p.1 p.2) := by
  intro pairs
  induction pairs with
  | nil => intro acc hacc; simp [comboLoop]
  | cons p rest ih =>
    intro acc hacc
    obtain ⟨a, b⟩ := p
    by_cases hc : ex.contains (a, b)
    · rw [comboLoop, if_pos hc, ih acc hacc, List.filter_cons,
        if_neg (by show ¬((!ex.contains (a, b)) = true); rw [hc]; decide)]
    · have hcf : ex.contains (a, b) = false := by simpa using hc
      have hfilter : List.filter (fun p => !ex.contains p) ((a, b) :: rest)
          = (a, b) :: List.filter (fun p => !ex.contains p) rest := by
        rw [List.filter_cons, if_pos (by show (!ex.contains (a, b)) = true; rw [hcf]; decide)]
      rw [comboLoop, if_neg hc]
      have hlen : (acc ++ [mkCombo g a b]).length = acc.length + 1 := by simp
      by_cases hstop : limit ≤ (acc ++ [mkCombo g a b]).length
      · rw [if_pos hstop, hfilter]
        rw [hlen] at hstop
        have htake : limit - acc.length = 1 := by omega
        rw [htake, List.take_succ_cons, List.take_zero, List.map_cons, List.map_nil]
      · rw [if_neg hstop, hfilter]
        rw [hlen] at hstop
        rw [ih _ (by omega), hlen]
        have htake : limit - acc.length = (limit - (acc.length + 1)) + 1 := by omega
        rw [htake, List.take_succ_cons, List.map_cons, List.append_assoc]
        rfl

/-- The Cartesian product the source iterates over. -/
def allTypedPairs (g : Graph) (t1 t2 : String) : List (String × String) :=
  (nodesOfType g t1).flatMap (fun e1 => (nodesOfType g t2).map (fun e2 => (e1, e2)))

theorem get_unexplored_eq (g : Graph) (t1 t2 : String) (limit : Nat)
    (hl : 1 ≤ limit) :
    get_unexplored_combinations g t1 t2 limit
      = (((allTypedPairs g t1 t2).filter
            (fun p => !((existingCombos g t1 t2).contains p))).take limit).map
          (fun p => mkCombo g p.1 p.2) := by
  rw [get_unexplored_combinations, comboLoop_eq g _ limit _ [] (by simpa using hl)]
  simp [allTypedPairs]

/-- Some poem referencing `entity_id` also references `pid`
    ("co-occurs with `entity_id` on a poem"). -/
def CoOccursOnPoemWith (g : Graph) (entity_id pid : String) : Prop :=
  ∃ p ∈ poemNodeIds g, hasEdge g p entity_id = true ∧ hasEdge g p pid = true

instance (g : Graph) (entity_id pid : String) :
    Decidable (CoOccursOnPoemWith g entity_id pid) := by
  unfold CoOccursOnPoemWith
  infer_instance

theorem mem_currentPatterns (g : Graph) (entity_id pattern_type pid : String) :
    pid ∈ currentPatterns g entity_id pattern_type
      ↔ isType g pid pattern_type = true ∧ CoOccursOnPoemWith g entity_id pid := by
  simp only [currentPatterns, List.mem_flatMap, List.mem_filter, mem_predecessorsOf,
    mem_successorsOf, CoOccursOnPoemWith, poemNodeIds_eq_nodesOfType, mem_nodesOfType]
  constructor
  · rintro ⟨p, ⟨hpe, hpt⟩, hps, hty⟩
    exact ⟨hty, p, hpt, hpe, hps⟩
  · rintro ⟨hty, p, hpt, hpe, hps⟩
    exact ⟨p, ⟨hpe, hpt⟩, hps, hty⟩

/-- C4 (amended): every pair returned by `get_unexplored_combinations` has
no poem simultaneously connected to both entities; conversely a typed
pair connected through some poem never appears; for `limit ≥ 1` at most
`limit` pairs are returned, and the result is exactly the prefix of the
Cartesian product of all type-A × type-B entities (in node-insertion
order) with observed pairs filtered out — no ranking by any score.  (At
`limit = 0` the source still returns one pair when an unexplored pair
exists, which is what the amendment to the claim records.) -/
theorem unexplored_combinations_correct (g : Graph)
    (entity_type_1 entity_type_2 : String) (limit : Nat) (hl : 1 ≤ limit) :
    (∀ c ∈ get_unexplored_combinations g entity_type_1 entity_type_2 limit,
        ¬ PoemConnectsBoth g c.id1 c.id2)
  ∧ (∀ a b, isType g a entity_type_1 = true → isType g b entity_type_2 = true →
        PoemConnectsBoth g a b →
        ∀ c ∈ get_unexplored_combinations g entity_type_1 entity_type_2 limit,
          ¬(c.id1 = a ∧ c.id2 = b))
  ∧ (get_unexplored_combinations g entity_type_1 entity_type_2 limit).length ≤ limit
  ∧ get_unexplored_combinations g entity_type_1 entity_type_2 limit
      = (((allTypedPairs g entity_type_1 entity_type_2).filter
            (fun p => !((existingCombos g entity_type_1 entity_type_2).contains p))).take
          limit).map (fun p => mkCombo g p.1 p.2) := by
  have heq := get_unexplored_eq g entity_type_1 entity_type_2 limit hl
  have key : ∀ c ∈ get_unexplored_combinations g entity_type_1 entity_type_2 limit,
      ¬ PoemConnectsBoth g c.id1 c.id2 := by
    intro c hc hpcb
    rw [heq] at hc
    rcases List.mem_map.mp hc with ⟨p, hp, rfl⟩
    have hpf := List.mem_of_mem_take hp
    rcases List.mem_filter.mp hpf with ⟨hpall, hpns⟩
    rcases (by simpa [allTypedPairs, List.mem_flatMap, List.mem_map] using hpall :
        ∃ a ∈ nodesOfType g entity_type_1, ∃ b ∈ nodesOfType g entity_type_2, (a, b) = p)
      with ⟨e1, he1, e2, he2, hpe⟩
    subst hpe
    have hmem : (e1, e2) ∈ existingCombos g entity_type_1 entity_type_2 :=
      (mem_existingCombos g entity_type_1 entity_type_2 e1 e2).mpr
        ⟨(mem_nodesOfType g entity_type_1 e1).mp he1,
         (mem_nodesOfType g entity_type_2 e2).mp he2, hpcb⟩
    have hcontains : (existingCombos g entity_type_1 entity_type_2).contains (e1, e2) = true :=
      List.elem_iff.mpr hmem
    rw [hcontains] at hpns
    exact absurd hpns (by decide)
  refine ⟨key, ?_, ?_, heq⟩
  · rintro a b _ _ hpcb c hc ⟨h1, h2⟩
    exact key c hc (by rw [h1, h2]; exact hpcb)
  · rw [heq]
    rw [List.length_map]
    exact le_trans (List.length_take_le _ _) le_rfl

/-- C5: `get_inverse_pattern` returns `[]` when the entity id is absent;
otherwise it returns exactly the `pattern_type` entities that never
co-occur with the entity on any poem referencing it, sorted by
`usage_count` descending. -/
theorem inverse_pattern_correct (g : Graph) (entity_id pattern_type : String) :
    (hasNode g entity_id = false → get_inverse_pattern g entity_id pattern_type = [])
  ∧ (hasNode g entity_id = true →
      (get_inverse_pattern g entity_id pattern_type).Perm
        (((nodesOfType g pattern_type).filter
            (fun pid => !(decide (CoOccursOnPoemWith g entity_id pid)))).map
          (fun pid => EntityRec.mk pid (nameOf g pid) (usageOf g pid))))
  ∧ List.Pairwise (fun a b => b.usage_count ≤ a.usage_count)
      (get_inverse_pattern g entity_id pattern_type) := by
  have hfc : ∀ h : hasNode g entity_id = true,
      ((nodesOfType g pattern_type).filter
          (fun pid => !((currentPatterns g entity_id pattern_type).contains pid)))
        = ((nodesOfType g pattern_type).filter
            (fun pid => !(decide (CoOccursOnPoemWith g entity_id pid)))) := by
    intro _
    apply List.filter_congr
    intro pid hpid
    have hty := (mem_nodesOfType g pattern_type pid).mp hpid
    have hiff : (currentPatterns g entity_id pattern_type).contains pid = true
        ↔ decide (CoOccursOnPoemWith g entity_id pid) = true := by
      rw [List.elem_iff, mem_currentPatterns, decide_eq_true_eq]
      exact ⟨fun h => h.2, fun h => ⟨hty, h⟩⟩
    have hbe : (currentPatterns g entity_id pattern_type).contains pid
        = decide (CoOccursOnPoemWith g entity_id pid) := by
      rcases Bool.eq_false_or_eq_true ((currentPatterns g entity_id pattern_type).contains pid)
        with h | h
      · rw [h, hiff.mp h]
      · rw [h]
        rcases Bool.eq_false_or_eq_true (decide (CoOccursOnPoemWith g entity_id pid))
          with h' | h'
        · exact absurd (hiff.mpr h') (by rw [h]; decide)
        · rw [h']
    rw [hbe]
  refine ⟨?_, ?_, ?_⟩
  · intro h
    rw [get_inverse_pattern, if_pos (by rw [h]; decide)]
  · intro h
    rw [get_inverse_pattern, if_neg (by rw [h]; decide), hfc h]
    exact sortDescBy_perm _ _
  · rcases Bool.eq_false_or_eq_true (hasNode g entity_id) with h | h
    · rw [get_inverse_pattern, if_neg (by rw [h]; decide)]
      exact sortDescBy_pairwise _ _
    · rw [get_inverse_pattern, if_pos (by rw [h]; decide)]
      exact List.Pairwise.nil

theorem lookup_append_of_forall_ne {β : Type} (k : String) :
    ∀ (a rest : List (String × β)), (∀ p ∈ a, ¬(p.1 = k)) →
    List.lookup k (a ++ rest) = List.lookup k rest := by
  intro a
  induction a with
  | nil => intro rest _; rfl
  | cons p ps ih =>
    intro rest h
    obtain ⟨k', v'⟩ := p
    rw [List.cons_append, List.lookup]
    have hne : ¬(k' = k) := h (k', v') (List.mem_cons_self _ _)
    rw [show (k == k') = false from beq_eq_false_iff_ne.mpr (fun he => hne he.symm)]
    exact ih rest (fun q hq => h q (List.mem_cons_of_mem _ hq))

theorem stripKeys_eq_self (d : Attrs) (ks : List String) (h : ∀ p ∈ d, p.1 ∉ ks) :
    stripKeys d ks = d := by
  rw [stripKeys]
  apply List.filter_eq_self.mpr
  intro p hp
  have := h p hp
  rcases hc : ks.contains p.1 with _ | _
  · rfl
  · exact absurd (List.elem_iff.mp hc) this

theorem stripKeys_append_dropped (a extra : Attrs) (ks : List String)
    (ha : ∀ p ∈ a, p.1 ∉ ks) (hx : ∀ p ∈ extra, p.1 ∈ ks) :
    stripKeys (a ++ extra) ks = a := by
  rw [stripKeys, List.filter_append]
  have h1 : List.filter (fun p => !(ks.contains p.1)) a = a := stripKeys_eq_self a ks ha
  have h2 : List.filter (fun p => !(ks.contains p.1)) extra = [] := by
    apply List.filter_eq_nil_iff.mpr
    intro p hp
    have hc : ks.contains p.1 = true := List.elem_iff.mpr (hx p hp)
    rw [hc]
    decide
  rw [h1, h2, List.append_nil]

theorem parseNode_roundtrip (i : String) (a : Attrs) (h : ∀ p ∈ a, ¬(p.1 = "id")) :
    parseNode (.dict (a ++ [("id", .s i)])) = some (i, a) := by
  have hfind : findAttr (a ++ [("id", .s i)]) "id" = some (.s i) := by
    rw [findAttr, lookup_append_of_forall_ne "id" a _ h]
    rfl
  rw [parseNode, hfind]
  have hstrip : stripKeys (a ++ [("id", Val.s i)]) ["id"] = a := by
    apply stripKeys_append_dropped
    · intro p hp
      simp only [List.mem_singleton]
      exact h p hp
    · intro p hp
      simp only [List.mem_singleton] at hp
      rw [hp]
      exact List.mem_singleton.mpr rfl
  rw [hstrip]

theorem parseEdge_roundtrip (u w : String) (k : Int) (a : Attrs)
    (h : ∀ p ∈ a, p.1 ∉ (["source", "target", "key"] : List String)) :
    parseEdge (.dict (a ++ [("source", .s u), ("target", .s w), ("key", .i k)]))
      = some (u, w, a) := by
  have hsrc : findAttr (a ++ [("source", .s u), ("target", .s w), ("key", .i k)]) "source"
      = some (.s u) := by
    rw [findAttr, lookup_append_of_forall_ne "source" a _
      (fun p hp hpe => h p hp (by rw [hpe]; decide))]
    rfl
  have htgt : findAttr (a ++ [("source", .s u), ("target", .s w), ("key", .i k)]) "target"
      = some (.s w) := by
    rw [findAttr, lookup_append_of_forall_ne "target" a _
      (fun p hp hpe => h p hp (by rw [hpe]; decide))]
    rfl
  rw [parseEdge, hsrc, htgt]
  have hstrip : stripKeys (a ++ [("source", Val.s u), ("target", Val.s w), ("key", Val.i k)])
      ["source", "target", "key"] = a := by
    apply stripKeys_append_dropped
    · exact h
    · intro p hp
      simp only [List.mem_cons, List.not_mem_nil, or_false] at hp
      rcases hp with rfl | rfl | rfl
      · exact List.mem_cons_self _ _
      · exact List.mem_cons_of_mem _ (List.mem_cons_self _ _)
      · exact List.mem_cons_of_mem _ (List.mem_cons_of_mem _ (List.mem_cons_self _ _))
  rw [hstrip]

theorem parseList_map {α β : Type} (h : Val → Option β) (f : α → Val) (r : α → β) :
    ∀ l : List α, (∀ x ∈ l, h (f x) = some (r x)) →
    parseList h (l.map f) = some (l.map r) := by
  intro l
  induction l with
  | nil => intro _; rfl
  | cons x xs ih =>
    intro hall
    rw [List.map_cons, parseList, hall x (List.mem_cons_self _ _),
      ih (fun y hy => hall y (List.mem_cons_of_mem _ hy))]
    rfl

theorem withKeys_map_fst (edges : List Edge) : (withKeys edges).map Prod.fst = edges := by
  have main : ∀ (l : List Edge) (acc : List (Edge × Nat)),
      ((l.foldl (fun acc e =>
          acc ++ [(e, (acc.filter (fun p => p.1.src == e.src && p.1.tgt == e.tgt)).length)])
        acc).map Prod.fst) = acc.map Prod.fst ++ l := by
    intro l
    induction l with
    | nil => intro acc; simp
    | cons e es ih =>
      intro acc
      rw [List.foldl_cons, ih, List.map_append]
      simp
  have h := main edges []
  simpa [withKeys] using h

theorem addNode_fresh (g : Graph) (id : String) (a : Attrs) (h : hasNode g id = false) :
    addNode g id a = ⟨g.nodes ++ [(id, a)], g.edges⟩ := by
  rw [addNode, if_neg (by rw [h]; decide)]

theorem hasNode_append (n1 n2 : List (String × Attrs)) (e : List Edge) (id : String) :
    hasNode ⟨n1 ++ n2, e⟩ id = (hasNode ⟨n1, e⟩ id || hasNode ⟨n2, e⟩ id) := by
  simp [hasNode, List.any_append]

theorem foldl_addNode_fresh :
    ∀ (rest : List (String × Attrs)) (g : Graph),
    (∀ p ∈ rest, hasNode g p.1 = false) → (rest.map Prod.fst).Nodup →
    rest.foldl (fun h p => addNode h p.1 p.2) g = ⟨g.nodes ++ rest, g.edges⟩ := by
  intro rest
  induction rest with
  | nil => intro g _ _; simp
  | cons p ps ih =>
    intro g hfresh hnodup
    rw [List.map_cons] at hnodup
    rcases List.nodup_cons.mp hnodup with ⟨hnm, hnodup'⟩
    rw [List.foldl_cons, addNode_fresh g p.1 p.2 (hfresh p (List.mem_cons_self _ _))]
    have hfresh' : ∀ q ∈ ps, hasNode ⟨g.nodes ++ [(p.1, p.2)], g.edges⟩ q.1 = false := by
      intro q hq
      rw [hasNode_append]
      have h1 : hasNode g q.1 = false := hfresh q (List.mem_cons_of_mem _ hq)
      have hne : ¬(p.1 = q.1) := by
        intro he
        refine hnm ?_
        rw [he]
        exact List.mem_map.mpr ⟨q, hq, rfl⟩
      have h2 : hasNode ⟨[(p.1, p.2)], g.edges⟩ q.1 = false := by
        simp only [hasNode, List.any_cons, List.any_nil, Bool.or_false]
        exact beq_eq_false_iff_ne.mpr hne
      rw [show (⟨g.nodes, g.edges⟩ : Graph) = g from rfl, h1, h2]
      decide
    rw [ih _ hfresh' hnodup']
    simp

theorem addEdge_present (g : Graph) (u v : String) (a : Attrs)
    (hu : hasNode g u = true) (hv : hasNode g v = true) :
    addEdge g u v a = ⟨g.nodes, g.edges ++ [⟨u, v, a⟩]⟩ := by
  have h1 : ensureNode g u = g := by rw [ensureNode, if_pos hu]
  have h2 : ensureNode g v = g := by rw [ensureNode, if_pos hv]
  rw [addEdge, h1, h2]

theorem foldl_addEdge_present :
    ∀ (rest : List (String × String × Attrs)) (g : Graph),
    (∀ e ∈ rest, hasNode g e.1 = true ∧ hasNode g e.2.1 = true) →
    rest.foldl (fun h e => addEdge h e.1 e.2.1 e.2.2) g
      = ⟨g.nodes, g.edges ++ rest.map (fun e => Edge.mk e.1 e.2.1 e.2.2)⟩ := by
  intro rest
  induction rest with
  | nil => intro g _; simp
  | cons e es ih =>
    intro g hok
    have he := hok e (List.mem_cons_self _ _)
    rw [List.foldl_cons, addEdge_present g e.1 e.2.1 e.2.2 he.1 he.2]
    have hok' : ∀ q ∈ es,
        hasNode ⟨g.nodes, g.edges ++ [⟨e.1, e.2.1, e.2.2⟩]⟩ q.1 = true
        ∧ hasNode ⟨g.nodes, g.edges ++ [⟨e.1, e.2.1, e.2.2⟩]⟩ q.2.1 = true := by
      intro q hq
      exact hok q (List.mem_cons_of_mem _ hq)
    rw [ih _ hok']
    simp

theorem withKeys_map_comp {γ : Type} (edges : List Edge) (f : Edge → γ) :
    (withKeys edges).map (fun pk => f pk.1) = edges.map f := by
  show (withKeys edges).map (f ∘ Prod.fst) = edges.map f
  rw [← List.map_map, withKeys_map_fst]

/-- C3: a JSON `save_graph` followed by `load_graph` reconstructs the
identical multigraph — same node list, same edge list (parallel edges
included), every attribute (also `None`-valued ones) preserved.  The
hypotheses state that `g` is a reachable `networkx` state (distinct node
ids, edge endpoints present, attribute bags free of the reserved
node-link field names) and that it exhibits the features named by the
claim; the proof does not depend on the latter. -/
theorem save_load_roundtrip (g : Graph)
    (hnodup : (g.nodes.map Prod.fst).Nodup)
    (hends : ∀ e ∈ g.edges, hasNode g e.src = true ∧ hasNode g e.tgt = true)
    (hnid : ∀ p ∈ g.nodes, ∀ kv ∈ p.2, ¬(kv.1 = "id"))
    (hekeys : ∀ e ∈ g.edges, ∀ kv ∈ e.attrs,
        kv.1 ∉ (["source", "target", "key"] : List String))
    (_hfeat : (∃ p ∈ g.nodes, isType g p.1 "poem" = true)
      ∧ (∃ p ∈ g.nodes, isType g p.1 "theme" = true)
      ∧ (∃ p ∈ g.nodes, isType g p.1 "imagery" = true)
      ∧ (∃ p ∈ g.nodes, isType g p.1 "emotion" = true)
      ∧ (∃ p ∈ g.nodes, isType g p.1 "sound_device" = true)
      ∧ (∃ e ∈ g.edges, edgeType e = some "narrative_connection")) :
    node_link_graph (node_link_data g) = some g := by
  have hdoc : node_link_graph (node_link_data g)
      = match parseList parseNode
            (g.nodes.map fun p => Val.dict (p.2 ++ [("id", Val.s p.1)])),
          parseList parseEdge ((withKeys g.edges).map fun pk =>
            Val.dict (pk.1.attrs ++ [("source", Val.s pk.1.src),
              ("target", Val.s pk.1.tgt), ("key", Val.i pk.2)])) with
        | some nodeRecs, some linkRecs =>
          some (linkRecs.foldl (fun h e => addEdge h e.1 e.2.1 e.2.2)
            (nodeRecs.foldl (fun h p => addNode h p.1 p.2) Graph.empty))
        | _, _ => none := rfl
  have hn : parseList parseNode
      (g.nodes.map fun p => Val.dict (p.2 ++ [("id", Val.s p.1)]))
      = some (g.nodes.map fun p => p) :=
    parseList_map parseNode _ (fun p => p) g.nodes
      (fun p hp => parseNode_roundtrip p.1 p.2 (hnid p hp))
  rw [List.map_id'] at hn
  have hl : parseList parseEdge ((withKeys g.edges).map fun pk =>
        Val.dict (pk.1.attrs ++ [("source", Val.s pk.1.src),
          ("target", Val.s pk.1.tgt), ("key", Val.i pk.2)]))
      = some ((withKeys g.edges).map fun pk => (pk.1.src, pk.1.tgt, pk.1.attrs)) := by
    apply parseList_map
    intro pk hpk
    have hmem : pk.1 ∈ g.edges := by
      rw [← withKeys_map_fst g.edges]
      exact List.mem_map.mpr ⟨pk, hpk, rfl⟩
    exact parseEdge_roundtrip pk.1.src pk.1.tgt (pk.2 : Int) pk.1.attrs (hekeys pk.1 hmem)
  have hl2 : (withKeys g.edges).map (fun pk => (pk.1.src, pk.1.tgt, pk.1.attrs))
      = g.edges.map (fun e => (e.src, e.tgt, e.attrs)) :=
    withKeys_map_comp g.edges (fun e => (e.src, e.tgt, e.attrs))
  rw [hdoc, hn, hl, hl2]
  dsimp only
  have hn2 : g.nodes.foldl (fun h p => addNode h p.1 p.2) Graph.empty
      = ⟨g.nodes, []⟩ := by
    rw [foldl_addNode_fresh g.nodes Graph.empty (fun p _ => rfl) hnodup]
    rfl
  rw [hn2]
  have he2 : (g.edges.map fun e => (e.src, e.tgt, e.attrs)).foldl
        (fun h e => addEdge h e.1 e.2.1 e.2.2) ⟨g.nodes, []⟩
      = ⟨g.nodes, [] ++ (g.edges.map fun e => (e.src, e.tgt, e.attrs)).map
          (fun e => Edge.mk e.1 e.2.1 e.2.2)⟩ := by
    apply foldl_addEdge_present
    intro q hq
    rcases List.mem_map.mp hq with ⟨e, he, rfl⟩
    exact hends e he
  rw [he2, List.map_map]
  have : g.edges.map ((fun e => Edge.mk e.1 e.2.1 e.2.2)
      ∘ (fun e => (e.src, e.tgt, e.attrs))) = g.edges.map (fun e => e) := rfl
  rw [this, List.map_id', List.nil_append]

theorem isNarrEdge_iff (e : Edge) (u v : String) :
    isNarrEdge e u v = true
      ↔ e.src = u ∧ e.tgt = v ∧ edgeType e = some "narrative_connection" := by
  simp [isNarrEdge, Bool.and_eq_true, beq_iff_eq, and_assoc]

/-- C9: NotFound is signalled by return value.  `get_poem` returns `None`
for an absent id; role marking and `remove_poem` return `False` for an
absent or non-poem id; `create_narrative_connection` returns `False`
when either endpoint is absent; and `remove_narrative_connection`
returns `True` exactly when at least one `narrative_connection` edge
from source to target existed — and it removes precisely those edges.
The hypothesis states the `networkx` invariant that edge endpoints are
nodes. -/
theorem notfound_by_return (g : Graph) (id s t role ct now : String)
    (c : Bool) (strength : Rat) (notes : Val)
    (hWF : ∀ e ∈ g.edges, hasNode g e.src = true ∧ hasNode g e.tgt = true) :
    (hasNode g id = false → get_poem g id = none)
  ∧ (hasNode g id = false ∨ nodeType g id ≠ some "poem" →
      set_narrative_role g id role = (g, false))
  ∧ (hasNode g id = false ∨ nodeType g id ≠ some "poem" →
      remove_poem g id c = (g, false))
  ∧ (hasNode g s = false ∨ hasNode g t = false →
      create_narrative_connection g now s t ct strength notes = (g, false))
  ∧ ((remove_narrative_connection g s t).2 = true
      ↔ ∃ e ∈ g.edges, isNarrEdge e s t = true)
  ∧ (remove_narrative_connection g s t).1.edges
      = g.edges.filter (fun e => !(isNarrEdge e s t)) := by
  have hnonarr_of_missing : (hasNode g s && hasNode g t) = false →
      ∀ e ∈ g.edges, isNarrEdge e s t = false := by
    intro hb e he
    rcases Bool.eq_false_or_eq_true (isNarrEdge e s t) with hn | hn
    · rcases (isNarrEdge_iff e s t).mp hn with ⟨h1, h2, _⟩
      have := hWF e he
      rw [h1, h2] at this
      rw [this.1, this.2] at hb
      exact absurd hb (by decide)
    · exact hn
  have hnonarr_of_noedge : hasEdge g s t = false →
      ∀ e ∈ g.edges, isNarrEdge e s t = false := by
    intro hb e he
    rcases Bool.eq_false_or_eq_true (isNarrEdge e s t) with hn | hn
    · rcases (isNarrEdge_iff e s t).mp hn with ⟨h1, h2, _⟩
      have : hasEdge g s t = true := by
        apply List.any_eq_true.mpr
        exact ⟨e, he, by rw [h1, h2]; simp⟩
      rw [this] at hb
      exact absurd hb (by decide)
    · exact hn
  refine ⟨?_, ?_, ?_, ?_, ?_, ?_⟩
  · intro h
    rw [get_poem, (hasNode_false_iff g id).mp h]
  · intro h
    by_cases hn : hasNode g id = true
    · rcases h with h | h
      · rw [h] at hn; exact absurd hn (by decide)
      · rw [set_narrative_role, if_neg (by rw [hn]; decide),
          if_pos (by rw [beq_eq_false_iff_ne.mpr h]; decide)]
    · have hf : hasNode g id = false := Bool.eq_false_iff.mpr hn
      rw [set_narrative_role, if_pos (by rw [hf]; decide)]
  · intro h
    by_cases hn : hasNode g id = true
    · rcases h with h | h
      · rw [h] at hn; exact absurd hn (by decide)
      · rw [remove_poem, if_neg (by rw [hn]; decide),
          if_pos (by rw [beq_eq_false_iff_ne.mpr h]; decide)]
    · have hf : hasNode g id = false := Bool.eq_false_iff.mpr hn
      rw [remove_poem, if_pos (by rw [hf]; decide)]
  · rintro (h | h)
    · rw [create_narrative_connection, if_pos (by rw [h]; simp)]
    · rw [create_narrative_connection, if_pos (by rw [h]; simp)]
  · by_cases hb : (hasNode g s && hasNode g t) = true
    · rw [remove_narrative_connection, if_neg (by rw [hb]; decide)]
      by_cases hhe : hasEdge g s t = true
      · rw [if_pos hhe]
        exact List.any_eq_true
      · have hf : hasEdge g s t = false := Bool.eq_false_iff.mpr hhe
        rw [if_neg hhe]
        constructor
        · intro hfalse; simp at hfalse
        · rintro ⟨e, he, hne⟩
          rw [hnonarr_of_noedge hf e he] at hne
          exact absurd hne (by decide)
    · have hbf : (hasNode g s && hasNode g t) = false := Bool.eq_false_iff.mpr hb
      rw [remove_narrative_connection, if_pos (by rw [hbf]; decide)]
      constructor
      · intro hfalse; simp at hfalse
      · rintro ⟨e, he, hne⟩
        rw [hnonarr_of_missing hbf e he] at hne
        exact absurd hne (by decide)
  · by_cases hb : (hasNode g s && hasNode g t) = true
    · rw [remove_narrative_connection, if_neg (by rw [hb]; decide)]
      by_cases hhe : hasEdge g s t = true
      · rw [if_pos hhe]
      · have hf : hasEdge g s t = false := Bool.eq_false_iff.mpr hhe
        rw [if_neg hhe]
        refine (List.filter_eq_self.mpr ?_).symm
        intro e he
        rw [hnonarr_of_noedge hf e he]
        decide
    · have hbf : (hasNode g s && hasNode g t) = false := Bool.eq_false_iff.mpr hb
      rw [remove_narrative_connection, if_pos (by rw [hbf]; decide)]
      refine (List.filter_eq_self.mpr ?_).symm
      intro e he
      rw [hnonarr_of_missing hbf e he]
      decide

/-- C10: `get_poem` returns `None` exactly when the id is absent from
the graph; when the id names any existing node — poem or not — it
returns that node's attribute dict augmented with the themes, imagery,
emotions, sound-devices and narrative-connections lists; it performs no
type check on the node it finds. -/
theorem get_poem_no_type_check (g : Graph) (id : String) :
    (get_poem g id = none ↔ hasNode g id = false)
  ∧ (∀ a, nodeAttrs g id = some a →
      get_poem g id = some (setAttr (setAttr (setAttr (setAttr (setAttr a
          "themes" (.arr ((get_connected_entities g id "theme").map .s)))
          "imagery" (.arr ((get_connected_entities g id "imagery").map .s)))
          "emotions" (.arr ((get_connected_entities g id "emotion").map .s)))
          "sound_devices" (.arr ((get_connected_entities g id "sound_device").map .s)))
          "narrative_connections" (.arr (narrativeConnRecords g id)))) := by
  constructor
  · constructor
    · intro h
      rcases hna : nodeAttrs g id with _ | a
      · exact (hasNode_false_iff g id).mpr hna
      · rw [get_poem, hna] at h
        exact absurd h (by simp)
    · intro h
      rw [get_poem, (hasNode_false_iff g id).mp h]
  · intro a ha
    rw [get_poem, ha]

/-- C1 evaluation at the claim's scenario: poems `p1`, `p2` both carry
theme "urban" (`usage_count = 2`, `p2` has an edge to the theme);
`remove_poem("p1", cleanup_orphaned_entities=True)` returns `True` and
removes `p1`, but it ALSO removes `theme_urban` even though `p2` still
references it, because the source's orphan check reads
`graph.neighbors(entity_id)` — the entity's successors, which are
always empty — instead of its predecessors. -/
theorem removal_cascade_eval :
    usageOf gC1 "theme_urban" = 2
  ∧ hasEdge gC1 "p2" "theme_urban" = true
  ∧ (remove_poem gC1 "p1" true).2 = true
  ∧ hasNode (remove_poem gC1 "p1" true).1 "p1" = false
  ∧ isType (remove_poem gC1 "p1" true).1 "p2" "poem" = true
  ∧ hasNode (remove_poem gC1 "p1" true).1 "theme_urban" = false := by
  refine ⟨?_, ?_, ?_, ?_, ?_, ?_⟩ <;> decide

/-- C2 counterexample: after
`add_poem("p1","T1","line one\nline two","R1", themes=["Loss","loss"])`
on an empty graph, `theme_loss` has `usage_count = 2`, not `1` as the
claim states (each listed duplicate increments the counter and appends
an edge — the source has no within-call deduplication). -/
theorem fresh_graph_usage_not_one : ¬(usageOf gC2 "theme_loss" = 1) := by decide

/-- C2 (amended): the call creates exactly one poem node and exactly one
theme node `theme_loss`, but with `usage_count = 2` and two parallel
`has_theme` edges from `p1` to `theme_loss`; `get_poem("p1")["themes"]`
is `["Loss"]` — the display name from the first insertion, listed once
because `neighbors` deduplicates by target. -/
theorem fresh_graph_amended :
    (gC2.nodes.filter (fun p => isType gC2 p.1 "poem")).map Prod.fst = ["p1"]
  ∧ nodesOfType gC2 "theme" = ["theme_loss"]
  ∧ usageOf gC2 "theme_loss" = 2
  ∧ (gC2.edges.filter (fun e => e.src == "p1" && e.tgt == "theme_loss"
      && (edgeType e == some "has_theme"))).length = 2
  ∧ get_connected_entities gC2 "p1" "theme" = ["Loss"]
  ∧ (get_poem gC2 "p1").bind (fun d => findAttr d "themes")
      = some (.arr [.s "Loss"]) := by
  refine ⟨?_, ?_, ?_, ?_, ?_, ?_⟩
  · decide
  · decide
  · decide
  · decide
  · decide
  · rfl

/-- C8 (amended): the diversity score is `0` when fewer than two of the
route's poems carry a `line_count`; with at least two it equals the
population coefficient of variation times two, clamped to `1.0` (the
all-zero-mean case also returns `0`, matching the real-division
convention); it never exceeds `1`; and it is non-negative — hence in
`[0, 1]` — whenever the recorded line counts are non-negative.  (With a
negative line count the source can return a negative score, which is
what the amendment records.) -/
theorem structural_diversity_props (g : Graph) (route_id : String) :
    ((lineCountsOfRoute g route_id).length < 2 →
        get_structural_diversity_score g route_id = 0)
  ∧ (2 ≤ (lineCountsOfRoute g route_id).length →
        get_structural_diversity_score g route_id
          = min (popStd (lineCountsOfRoute g route_id)
              / popMean (lineCountsOfRoute g route_id) * 2) 1)
  ∧ ((∀ c ∈ lineCountsOfRoute g route_id, 0 ≤ c) →
        0 ≤ get_structural_diversity_score g route_id)
  ∧ get_structural_diversity_score g route_id ≤ 1 := by
  have hlen : (lineCountsOfRoute g route_id).length ≤ (poemsOfRoute g route_id).length :=
    List.length_filterMap_le _ _
  refine ⟨?_, ?_, ?_, ?_⟩
  · intro h
    rw [get_structural_diversity_score]
    by_cases hp : (poemsOfRoute g route_id).length < 2
    · rw [if_pos hp]
    · rw [if_neg hp, diversityFromCounts, if_pos h]
  · intro h
    rw [get_structural_diversity_score, if_neg (by omega), diversityFromCounts,
      if_neg (by omega)]
    by_cases hm : popMean (lineCountsOfRoute g route_id) = 0
    · rw [if_pos hm, hm, div_zero, zero_mul]
      rw [min_eq_left (by norm_num)]
    · rw [if_neg hm]
  · intro hpos
    rw [get_structural_diversity_score]
    by_cases hp : (poemsOfRoute g route_id).length < 2
    · rw [if_pos hp]
    · rw [if_neg hp, diversityFromCounts]
      by_cases h2 : (lineCountsOfRoute g route_id).length < 2
      · rw [if_pos h2]
      · rw [if_neg h2]
        by_cases hm : popMean (lineCountsOfRoute g route_id) = 0
        · rw [if_pos hm]
        · rw [if_neg hm]
          have hmean_nonneg : 0 ≤ popMean (lineCountsOfRoute g route_id) := by
            rw [popMean]
            apply div_nonneg
            · apply List.sum_nonneg
              intro x hx
              rcases List.mem_map.mp hx with ⟨c, hc, hceq⟩
              rw [← hceq]
              exact Int.cast_nonneg.mpr (hpos c hc)
            · exact Nat.cast_nonneg _
          have hstd_nonneg : 0 ≤ popStd (lineCountsOfRoute g route_id) :=
            Real.sqrt_nonneg _
          have hq : 0 ≤ popStd (lineCountsOfRoute g route_id)
              / popMean (lineCountsOfRoute g route_id) * 2 := by
            apply mul_nonneg _ (by norm_num)
            exact div_nonneg hstd_nonneg hmean_nonneg
          exact le_min hq (by norm_num)
  · rw [get_structural_diversity_score]
    by_cases hp : (poemsOfRoute g route_id).length < 2
    · rw [if_pos hp]; norm_num
    · rw [if_neg hp, diversityFromCounts]
      by_cases h2 : (lineCountsOfRoute g route_id).length < 2
      · rw [if_pos h2]; norm_num
      · rw [if_neg h2]
        by_cases hm : popMean (lineCountsOfRoute g route_id) = 0
        · rw [if_pos hm]; norm_num
        · rw [if_neg hm]
          exact min_le_right _ _

def gC8 : Graph :=
  add_poem
    (add_poem Graph.empty "t0" "q1" "T" "x" "R9" [] [] [] []
      (some [("line_count", .i 1)]) none [] "route_generated")
    "t1" "q2" "T" "y" "R9" [] [] [] [] (some [("line_count", .i (-3))]) none []
    "route_generated"

/-- C8 counterexample: a route whose two poems record line counts `1`
and `-3` (the metadata bag is unconstrained) gets a strictly negative
score, so the score does not lie in `[0, 1]` for every route. -/
theorem structural_diversity_negative :
    get_structural_diversity_score gC8 "R9" < 0 := by
  have hcs : lineCountsOfRoute gC8 "R9" = [1, -3] := by decide
  have hpc : (poemsOfRoute gC8 "R9").length = 2 := by decide
  have hmean : popMean [1, -3] = -1 := by
    rw [popMean]
    norm_num
  have hvar : popVariance [1, -3] = 4 := by
    rw [popVariance, hmean]
    norm_num
  have hstd : popStd [1, -3] = 2 := by
    rw [popStd, hvar, show (4:ℝ) = 2 ^ 2 by norm_num,
      Real.sqrt_sq (by norm_num : (0:ℝ) ≤ 2)]
  rw [get_structural_diversity_score, hpc, hcs, if_neg (by omega),
    diversityFromCounts, if_neg (by norm_num), if_neg (by rw [hmean]; norm_num),
    hmean, hstd]
  rw [show (2:ℝ) / (-1) * 2 = -4 by norm_num, min_eq_left (by norm_num : (-4:ℝ) ≤ 1)]
  norm_num

/-- C8 witness: route `R1` of the two-poem sample graph has no recorded
line counts, so the score is `0`. -/
theorem structural_diversity_witness :
    (lineCountsOfRoute gC5 "R1").length < 2
  ∧ get_structural_diversity_score gC5 "R1" = 0 :=
  ⟨by decide, (structural_diversity_props gC5 "R1").1 (by decide)⟩

theorem motif_score_nonneg (a b c : List String) : 0 ≤ calculate_motif_score a b c := by
  rw [calculate_motif_score]
  by_cases h : b = [] ∧ c = []
  · rw [if_pos h]; norm_num
  · rw [if_neg h]; exact le_max_left 0 _

theorem emotion_alignment_nonneg (emos : List String) (stance : String) :
    0 ≤ calculate_emotion_alignment emos stance := by
  rw [calculate_emotion_alignment]
  have hd : (0:Rat) ≤ ((max 1 emos.dedup.length : Nat) : Rat) := Nat.cast_nonneg _
  split_ifs <;> exact div_nonneg (Nat.cast_nonneg _) hd

theorem fragment_score_nonneg (text : String) (frags : List String) :
    0 ≤ check_narrative_fragments text frags := by
  rw [check_narrative_fragments]
  split_ifs
  · norm_num
  · exact div_nonneg (Nat.cast_nonneg _) (Nat.cast_nonneg _)

theorem theme_alignment_two (themes : List String)
    (h : interCount themes central_themes = 2) :
    calculate_theme_alignment themes "supporting" = 1 := by
  rw [calculate_theme_alignment, h, if_pos (by decide)]
  norm_num

theorem sum_ge_card_mul (c : Rat) : ∀ (l : List Rat), (∀ x ∈ l, c ≤ x) →
    c * l.length ≤ l.sum := by
  intro l
  induction l with
  | nil => intro _; simp
  | cons x xs ih =>
    intro h
    rw [List.sum_cons, List.length_cons]
    push_cast
    have hx := h x (List.mem_cons_self _ _)
    have hxs := ih (fun y hy => h y (List.mem_cons_of_mem _ hy))
    nlinarith [hxs, hx]

theorem avg_ge_of_forall (scores : List Rat) (c : Rat) (hne : scores ≠ [])
    (h : ∀ x ∈ scores, c ≤ x) : c ≤ avg_adherence scores := by
  rw [avg_adherence]
  have hlen : 0 < (scores.length : Rat) := by
    have hl : 0 < scores.length := List.length_pos.mpr hne
    exact_mod_cast hl
  rw [le_div_iff₀ hlen]
  exact sum_ge_card_mul c scores h

theorem adherence_score_lb (text : String) (pa : PoemAnalysis) (nd : NarrativeData)
    (h : calculate_theme_alignment pa.themes "supporting" = 1) :
    (2:Rat)/5 ≤ analyze_poem_adherence text pa "supporting" nd := by
  rw [analyze_poem_adherence, h]
  have h1 := motif_score_nonneg pa.imagery nd.emphasized_motifs nd.rejected_motifs
  have h2 := emotion_alignment_nonneg pa.emotions "supporting"
  have h3 := fragment_score_nonneg text nd.fragments
  nlinarith [h1, h2, h3]

/-- C6 (amended): for a non-empty route whose every poem's extracted
themes overlap exactly two canonical themes, testing at
`story_influence = 0.9` gives stance "supporting", theme-alignment `1.0`
for every poem, and — because the theme weight is only `0.4` — an
average adherence of at least `0.4`, i.e. a `test_result` of at least
`LOW_ADHERENCE` (not `MODERATE_ADHERENCE` as the claim states), the
other sub-scores being non-negative by construction. -/
theorem adherence_bucket_correct (poems : List (String × PoemAnalysis))
    (hne : poems ≠ [])
    (hth : ∀ p ∈ poems, interCount p.2.themes central_themes = 2) :
    get_narrative_stance (9/10) = "supporting"
  ∧ (∀ p ∈ poems, calculate_theme_alignment p.2.themes "supporting" = 1)
  ∧ (2:Rat)/5 ≤ avg_adherence (route_adherence_scores poems "supporting"
        (apply_story_influence_data "supporting"))
  ∧ adherence_result (avg_adherence (route_adherence_scores poems "supporting"
        (apply_story_influence_data "supporting"))) ≠ "POOR_ADHERENCE" := by
  have hstance : get_narrative_stance (9/10) = "supporting" := by
    rw [get_narrative_stance, if_neg (by norm_num), if_pos (by norm_num)]
  have hta : ∀ p ∈ poems, calculate_theme_alignment p.2.themes "supporting" = 1 :=
    fun p hp => theme_alignment_two p.2.themes (hth p hp)
  have havg : (2:Rat)/5 ≤ avg_adherence (route_adherence_scores poems "supporting"
      (apply_story_influence_data "supporting")) := by
    apply avg_ge_of_forall
    · rw [route_adherence_scores]
      intro hmap
      exact hne (List.map_eq_nil_iff.mp hmap)
    · intro x hx
      rcases List.mem_map.mp hx with ⟨p, hp, hpe⟩
      rw [← hpe]
      exact adherence_score_lb p.1 p.2 _ (hta p hp)
  refine ⟨hstance, hta, havg, ?_⟩
  rw [adherence_result]
  split_ifs with h1 h2 h3
  · decide
  · decide
  · decide
  · exfalso
    apply h3
    linarith [havg]

def paC6 : PoemAnalysis :=
  ⟨["urban surveillance and observation", "movement as freedom and control"], [], []⟩

/-- C6 counterexample: a single-poem route whose analysis shows exactly
two canonical themes, no imagery, no emotions, and a text sharing no
significant fragment words scores `0.4*1 + 0.3*0 + 0.2*0 + 0.1*0 = 0.4`
at `story_influence = 0.9`, which buckets as `LOW_ADHERENCE` — not at
least `MODERATE_ADHERENCE` as the claim states. -/
theorem adherence_bucket_counterexample :
    get_narrative_stance (9/10) = "supporting"
  ∧ calculate_theme_alignment paC6.themes "supporting" = 1
  ∧ adherence_result (avg_adherence (route_adherence_scores [("station hum", paC6)]
      "supporting" (apply_story_influence_data "supporting"))) = "LOW_ADHERENCE" := by
  have hstance : get_narrative_stance (9/10) = "supporting" := by
    rw [get_narrative_stance, if_neg (by norm_num), if_pos (by norm_num)]
  have hta : calculate_theme_alignment paC6.themes "supporting" = 1 :=
    theme_alignment_two paC6.themes (by decide)
  have hnd : apply_story_influence_data "supporting"
      = ⟨core_motifs.take 3, [], canon_fragments.take 2⟩ := by
    rw [apply_story_influence_data, if_pos (by decide)]
  have hms : calculate_motif_score paC6.imagery (core_motifs.take 3) [] = 0 := by
    rw [calculate_motif_score, if_neg (by decide)]
    simp [paC6, lowerDedup, zero_div]
  have hes : calculate_emotion_alignment paC6.emotions "supporting" = 0 := by
    rw [calculate_emotion_alignment, if_pos (by decide)]
    simp [paC6, lowerDedup, zero_div]
  have hcount : (canon_fragments.take 2).countP
      (fun f => fragmentMatches (lowerStr "station hum") f) = 0 := by decide
  have hfs : check_narrative_fragments "station hum" (canon_fragments.take 2) = 0 := by
    rw [check_narrative_fragments, if_neg (by decide), hcount]
    norm_num
  have hscore : analyze_poem_adherence "station hum" paC6 "supporting"
      (apply_story_influence_data "supporting") = 2/5 := by
    rw [analyze_poem_adherence, hnd, hta, hms, hes, hfs]
    norm_num
  have hscores : route_adherence_scores [("station hum", paC6)] "supporting"
      (apply_story_influence_data "supporting") = [(2:Rat)/5] := by
    rw [route_adherence_scores, List.map_cons, List.map_nil, hscore]
  have havg : avg_adherence [(2:Rat)/5] = 2/5 := by
    rw [avg_adherence]
    norm_num
  refine ⟨hstance, hta, ?_⟩
  rw [hscores, havg, adherence_result, if_neg (by norm_num), if_neg (by norm_num),
    if_pos (by norm_num)]

/-- C6 witness: the amended theorem applied to the one-poem route of the
counterexample scenario. -/
theorem adherence_bucket_witness :
    ([("station hum", paC6)] ≠ ([] : List (String × PoemAnalysis)))
  ∧ adherence_result (avg_adherence (route_adherence_scores [("station hum", paC6)]
      "supporting" (apply_story_influence_data "supporting"))) ≠ "POOR_ADHERENCE" :=
  ⟨by decide,
   (adherence_bucket_correct [("station hum", paC6)] (by decide) (by decide)).2.2.2⟩

/-- C7: with `rebellious_mode = "create_new"` and loyalty not above
`0.7`, the dispatcher selects the create-new strategy; it picks the
first pair, in the order returned by
`get_unexplored_combinations("theme","sound_device")` (the source calls
it with `limit=10`, the function's default), whose sound-preference +
theme-affinity score (defaults `0.5`) strictly exceeds `1.0`; if none
exceeds `1.0` it picks the first unexplored pair; and with no
unexplored pairs it emits the literal placeholder strings. -/
theorem create_new_constraints_correct (g : Graph) (personality : Personality)
    (hl : ¬((7:Rat)/10 < personality.loyalty_to_canon))
    (hm : personality.rebellious_mode = some "create_new") :
    choose_constraints g personality = build_create_new_constraints g personality
  ∧ (get_unexplored_combinations g "theme" "sound_device" 10 = [] →
      (choose_constraints g personality).themes = ["(introduce new theme)"]
      ∧ (choose_constraints g personality).sound_devices
          = ["(introduce new sound device)"])
  ∧ (∀ c0 rest, get_unexplored_combinations g "theme" "sound_device" 10 = c0 :: rest →
      (∀ c, (get_unexplored_combinations g "theme" "sound_device" 10).find?
          (fun c => decide ((1:Rat) < comboScore personality c)) = some c →
        (choose_constraints g personality).themes = [c.name1]
        ∧ (choose_constraints g personality).sound_devices = [c.name2])
      ∧ ((get_unexplored_combinations g "theme" "sound_device" 10).find?
          (fun c => decide ((1:Rat) < comboScore personality c)) = none →
        (choose_constraints g personality).themes = [c0.name1]
        ∧ (choose_constraints g personality).sound_devices = [c0.name2])) := by
  have hdisp : choose_constraints g personality
      = build_create_new_constraints g personality := by
    rw [choose_constraints, if_neg hl, if_neg (by rw [hm]; decide),
      if_neg (by rw [hm]; decide), if_pos (by rw [hm]; decide)]
  refine ⟨hdisp, ?_, ?_⟩
  · intro hnil
    rw [hdisp, build_create_new_constraints, hnil]
    exact ⟨rfl, rfl⟩
  · intro c0 rest hcons
    constructor
    · intro c hfind
      rw [hdisp, build_create_new_constraints, hcons]
      rw [hcons] at hfind
      rw [hfind]
      exact ⟨rfl, rfl⟩
    · intro hfind
      rw [hdisp, build_create_new_constraints, hcons]
      rw [hcons] at hfind
      rw [hfind]
      exact ⟨rfl, rfl⟩

def pC7 : Personality := ⟨1/2, some "create_new", [], []⟩

/-- C7 witness: the dispatch equality instantiated at the two-entity
sample graph and a rebellious create-new personality. -/
theorem create_new_constraints_witness :
    ¬((7:Rat)/10 < pC7.loyalty_to_canon)
  ∧ pC7.rebellious_mode = some "create_new"
  ∧ choose_constraints gC4 pC7 = build_create_new_constraints gC4 pC7 :=
  ⟨by rw [pC7]; norm_num, rfl,
   (create_new_constraints_correct gC4 pC7 (by rw [pC7]; norm_num) rfl).1⟩

/-- C4 witness: the characterization applied at the sample graph with
the default limit `10`. -/
theorem unexplored_combinations_witness :
    1 ≤ 10
  ∧ (get_unexplored_combinations gC5 "theme" "sound_device" 10).length ≤ 10 :=
  ⟨by decide,
   (unexplored_combinations_correct gC5 "theme" "sound_device" 10 (by decide)).2.2.1⟩

/-- C4 counterexample: at `limit = 0` the source still returns one pair
(the length test runs only after an append), so "at most `n` pairs"
fails at `n = 0`. -/
theorem unexplored_combinations_limit_zero :
    ¬((get_unexplored_combinations gC4 "theme" "sound_device" 0).length ≤ 0) := by
  decide

/-- C5 witness: the inverse-pattern characterization applied at the
claim's scenario (poem with theme "night" and sound device
"alliteration", plus two other sound devices). -/
theorem inverse_pattern_witness :
    hasNode gC5 "theme_night" = true
  ∧ (get_inverse_pattern gC5 "theme_night" "sound_device").Perm
      (((nodesOfType gC5 "sound_device").filter
          (fun pid => !(decide (CoOccursOnPoemWith gC5 "theme_night" pid)))).map
        (fun pid => EntityRec.mk pid (nameOf gC5 pid) (usageOf gC5 pid))) :=
  ⟨by decide, (inverse_pattern_correct gC5 "theme_night" "sound_device").2.1 (by decide)⟩

/-- C3 witness: the round trip instantiated at a graph with two poems,
all four entity types, parallel `has_theme` edges and two parallel
narrative connections. -/
theorem save_load_roundtrip_witness :
    (gC3.nodes.map Prod.fst).Nodup
  ∧ node_link_graph (node_link_data gC3) = some gC3 :=
  ⟨by decide,
   save_load_roundtrip gC3 (by decide) (by decide) (by decide) (by decide)
     ⟨by decide, by decide, by decide, by decide, by decide, by decide⟩⟩

/-- C9 witness: the NotFound contract applied at the sample graph for an
absent id. -/
theorem notfound_by_return_witness :
    (∀ e ∈ gC5.edges, hasNode gC5 e.src = true ∧ hasNode gC5 e.tgt = true)
  ∧ get_poem gC5 "missing_poem" = none :=
  ⟨by decide,
   (notfound_by_return gC5 "missing_poem" "p1" "p2" "core" "echo" "t9" true 1 .null
     (by decide)).1 (by decide)⟩

/-- C10 witness: `get_poem` on the non-poem node `theme_night` returns
its attribute dict augmented with the five lists instead of `None`. -/
theorem get_poem_no_type_check_witness :
    nodeAttrs gC5 "theme_night"
      = some [("type", .s "theme"), ("name", .s "night"), ("usage_count", .i 1),
              ("created_at", .s "t0")]
  ∧ get_poem gC5 "theme_night"
      = some [("type", .s "theme"), ("name", .s "night"), ("usage_count", .i 1),
              ("created_at", .s "t0"),
              ("themes", .arr []), ("imagery", .arr []), ("emotions", .arr []),
              ("sound_devices", .arr []), ("narrative_connections", .arr [])] :=
  ⟨rfl, (get_poem_no_type_check gC5 "theme_night").2 _ rfl⟩

end MartaPoetry
